import Mathlib

/-!
Verification development for the `ratesreader` repository
(`src/ratesreader/ratesreader.py`).

The Python code is shallowly embedded: JSON-like Python values are modelled
by `JVal`, Python exceptions by `PyErr`, and fallible Python code by
`Except PyErr`.  Network requests are modelled by a `FetchOutcome` supplied
per request (a transport or decode failure, or a decoded payload); the
actual socket I/O, logging, and wall-clock delays are outside the model
since they do not affect the returned values.
-/

set_option maxHeartbeats 1000000

/-- A JSON-like Python value (the payload type of the readers).
Floats do not occur in the claims under verification and are not modelled. -/
inductive JVal where
  | null
  | bool (b : Bool)
  | int (n : Int)
  | str (s : String)
  | arr (xs : List JVal)
  | obj (kvs : List (String × JVal))
deriving Repr

/-- The Python exception kinds the embedded code can raise. -/
inductive PyErr where
  | valueError (msg : String)
  | keyError (msg : String)
  | typeError (msg : String)
  | attributeError (msg : String)
  | indexError (msg : String)
  | invalidOperation (msg : String)
deriving Repr, DecidableEq

/-- Python truthiness of a `JVal` (`bool(v)`). -/
def jTruthy : JVal → Bool
  | .null => false
  | .bool b => b
  | .int n => n != 0
  | .str s => s != ""
  | .arr xs => !xs.isEmpty
  | .obj kvs => !kvs.isEmpty

mutual

/-- Python equality (`==`) on the modelled values.  (Python's cross-type
numeric equalities such as `True == 1` do not arise in the embedded code.) -/
def jBeq : JVal → JVal → Bool
  | .null, .null => true
  | .bool a, .bool b => a == b
  | .int a, .int b => a == b
  | .str a, .str b => a == b
  | .arr xs, .arr ys => jBeqArr xs ys
  | .obj kvs, .obj lvs => jBeqObj kvs lvs
  | _, _ => false

def jBeqArr : List JVal → List JVal → Bool
  | [], [] => true
  | x :: xs, y :: ys => jBeq x y && jBeqArr xs ys
  | _, _ => false

def jBeqObj : List (String × JVal) → List (String × JVal) → Bool
  | [], [] => true
  | (k, v) :: xs, (l, w) :: ys => k == l && jBeq v w && jBeqObj xs ys
  | _, _ => false

end

theorem jBeq_str (a b : String) : jBeq (.str a) (.str b) = (a == b) := by
  simp [jBeq]

theorem jBeq_str_self (a : String) : jBeq (.str a) (.str a) = true := by
  simp [jBeq]

theorem jBeq_str_of_ne {a b : String} (h : a ≠ b) :
    jBeq (.str a) (.str b) = false := by
  simp [jBeq, h]

example : jTruthy (.obj []) = false := by decide
example : jTruthy (.str "x") = true := by decide
example : jBeq (.arr [.int 3]) (.arr [.int 3]) = true := by decide

/-- First binding of a string key in a Python dict (decoded JSON objects
have unique keys, so first-match lookup coincides with dict lookup). -/
def objLookup (kvs : List (String × JVal)) (k : String) : Option JVal :=
  match kvs with
  | [] => none
  | (k1, v1) :: rest => if k1 == k then some v1 else objLookup rest k

/-- Python `d[k] = v` on a dict with string keys: replace the first binding
of `k` in place, else append. -/
def objSet (kvs : List (String × JVal)) (k : String) (v : JVal) :
    List (String × JVal) :=
  match kvs with
  | [] => [(k, v)]
  | (k1, v1) :: rest =>
    if k1 == k then (k1, v) :: rest else (k1, v1) :: objSet rest k v

/-- Python `v[k]` with a string key `k`. -/
def pySubS (v : JVal) (k : String) : Except PyErr JVal :=
  match v with
  | .obj kvs =>
    match objLookup kvs k with
    | some x => .ok x
    | none => .error (.keyError k)
  | .arr _ => .error (.typeError "list indices must be integers or slices, not str")
  | .str _ => .error (.typeError "string indices must be integers")
  | _ => .error (.typeError "object is not subscriptable")

/-- Python `v.get(k, dflt)` (only dicts have `.get`). -/
def pyGet (v : JVal) (k : String) (dflt : JVal) : Except PyErr JVal :=
  match v with
  | .obj kvs => .ok ((objLookup kvs k).getD dflt)
  | _ => .error (.attributeError "object has no attribute get")

/-- ASCII upper-casing over the character list (`str.upper` for the ASCII
symbols the source compares). -/
def strUpper (s : String) : String :=
  String.mk (s.toList.map Char.toUpper)

/-- Python `v.upper()` (only strings have `.upper`). -/
def pyUpper (v : JVal) : Except PyErr String :=
  match v with
  | .str s => .ok (strUpper s)
  | _ => .error (.attributeError "object has no attribute upper")

/-- Strip leading and trailing whitespace from a character list. -/
def trimChars (cs : List Char) : List Char :=
  ((cs.dropWhile Char.isWhitespace).reverse.dropWhile Char.isWhitespace).reverse

def digitsVal (cs : List Char) : Nat :=
  cs.foldl (fun n c => n * 10 + (c.toNat - 48)) 0

/-- The integer denoted by a Python `int()` literal string, if valid:
surrounding whitespace stripped, optional sign, at least one digit. -/
def intFromChars (cs : List Char) : Option Int :=
  let t := trimChars cs
  let (neg, ds) :=
    match t with
    | '-' :: rest => (true, rest)
    | '+' :: rest => (false, rest)
    | _ => (false, t)
  if !ds.isEmpty && ds.all Char.isDigit then
    some (if neg then -(digitsVal ds : Int) else (digitsVal ds : Int))
  else none

/-- Python `int(v)`. -/
def pyIntOf (v : JVal) : Except PyErr Int :=
  match v with
  | .int n => .ok n
  | .bool b => .ok (if b then 1 else 0)
  | .str s =>
    match intFromChars s.toList with
    | some n => .ok n
    | none => .error (.valueError "invalid literal for int with base 10")
  | _ => .error (.typeError "int argument must be a string or a number")

/-- Python iteration `for x in v` (dicts iterate over their keys). -/
def pyIterate (v : JVal) : Except PyErr (List JVal) :=
  match v with
  | .arr xs => .ok xs
  | .str s => .ok (s.toList.map (fun c => .str (String.mk [c])))
  | .obj kvs => .ok (kvs.map (fun p => .str p.1))
  | _ => .error (.typeError "object is not iterable")

/-- Does character list `l` start with `p`? -/
def charsStartWith (l p : List Char) : Bool :=
  match l, p with
  | _, [] => true
  | [], _ :: _ => false
  | c :: cs, d :: ds => c == d && charsStartWith cs ds

/-- Does character list `l` contain `p` as a contiguous run? -/
def charsContain (l p : List Char) : Bool :=
  match l with
  | [] => p.isEmpty
  | _ :: cs => charsStartWith l p || charsContain cs p

/-- Substring test: Python `sub in s` for strings. -/
def strContains (s sub : String) : Bool :=
  charsContain s.toList sub.toList

/-- Python `k in v` for a string `k`. -/
def pyContainsB (v : JVal) (k : String) : Except PyErr Bool :=
  match v with
  | .obj kvs => .ok (kvs.any (fun p => p.1 == k))
  | .arr xs => .ok (xs.any (fun x => jBeq x (.str k)))
  | .str s => .ok (strContains s k)
  | _ => .error (.typeError "argument of type is not iterable")

/-- Whether a value may be used as a Python dict key. -/
def jHashable : JVal → Bool
  | .arr _ => false
  | .obj _ => false
  | _ => true

/-- First value bound to `k` (by Python `==`) in a dict with `JVal` keys. -/
def dictFind? {α : Type} (d : List (JVal × α)) (k : JVal) : Option α :=
  match d with
  | [] => none
  | (k1, v1) :: rest => if jBeq k1 k then some v1 else dictFind? rest k

/-- Replace-or-append for a dict with `JVal` keys (hashability unchecked). -/
def dictSet {α : Type} (d : List (JVal × α)) (k : JVal) (v : α) :
    List (JVal × α) :=
  match d with
  | [] => [(k, v)]
  | (k1, v1) :: rest =>
    if jBeq k1 k then (k1, v) :: rest else (k1, v1) :: dictSet rest k v

/-- Python `d[k] = v` on a dict with `JVal` keys: unhashable keys raise. -/
def pyDictSet {α : Type} (d : List (JVal × α)) (k : JVal) (v : α) :
    Except PyErr (List (JVal × α)) :=
  if jHashable k then .ok (dictSet d k v)
  else .error (.typeError "unhashable type")

/-- `UrlReaderMode` from the source: HTML pages vs decoded JSON. -/
inductive UrlReaderMode where
  | HTML
  | JSON
deriving Repr, DecidableEq

/-- What the single network request inside `_get_raw_data` produces:
either a transport-level or decode failure raised by
`session.get`/`response.json`/`response.text` (leaving `self.__result`
at `None`), or a decoded body (`JVal.str` text in HTML mode). -/
inductive FetchOutcome where
  | failure (e : PyErr)
  | payload (v : JVal)
deriving Repr

/-- State at the moment control leaves the `try` body of `_get_raw_data`:
the current `self.__result` and the in-flight exception, if any. -/
structure TryOutcome where
  result : Option JVal
  exc : Option PyErr
deriving Repr

def jOfOptStr : Option String → JVal
  | none => .null
  | some s => .str s

/-- Line 201 of the source, `self.__result[task_key] = task_name`:
assignment succeeds on a dict and raises `TypeError` on anything else
(leaving the result unchanged). -/
def jSetItemStep (v : JVal) (k : String) (tn : Option String) : TryOutcome :=
  match v with
  | .obj kvs => ⟨some (.obj (objSet kvs k (jOfOptStr tn))), none⟩
  | _ => ⟨some v, some (.typeError "object does not support item assignment")⟩

/-- The `try` body of `UrlReader._get_raw_data` (source lines 189-201):
sleep, request, decode, duplicate-correlation-key check (line 196-197,
which raises `KeyError` when the decoded truthy JSON already contains
`task_key`), and correlation-key injection (line 200-201). -/
def tryBody (mode : UrlReaderMode) (o : FetchOutcome)
    (tk tn : Option String) : TryOutcome :=
  match o with
  | .failure e => ⟨none, some e⟩
  | .payload v =>
    match mode with
    | .HTML => ⟨some v, none⟩
    | .JSON =>
      match tk with
      | none => ⟨some v, none⟩
      | some k =>
        if jTruthy v then
          match pyContainsB v k with
          | .error e => ⟨some v, some e⟩
          | .ok true => ⟨some v, some (.keyError "Task key already exist in JSON data.")⟩
          | .ok false => jSetItemStep v k tn
        else jSetItemStep v k tn

/-- Truthiness of `url` arguments (`None` and the empty string are falsy). -/
def strTruthyO : Option String → Bool
  | none => false
  | some s => s != ""

/-- `UrlReader._get_raw_data` (source lines 166-207).  The URL check on
lines 182-185 raises `ValueError` before any network activity; afterwards
the `except` clauses catch every exception and the `return self.__result`
in the `finally` block (line 206-207) swallows any exception still in
flight, so the call resolves to the current `self.__result`. -/
def getRawData (instUrl callUrl : Option String) (mode : UrlReaderMode)
    (o : FetchOutcome) (tk tn : Option String) : Except PyErr (Option JVal) :=
  if strTruthyO callUrl || strTruthyO instUrl then
    .ok (tryBody mode o tk tn).result
  else
    .error (.valueError "Url can not be None.")

/-- One slot of an `asyncio.gather(..., return_exceptions=True)` result:
a raised-and-captured exception object, or the value `_get_raw_data`
returned (`None` or a payload). -/
abbrev Slot := Except PyErr (Option JVal)

/-- Python `slot[k]` on a gather slot. -/
def slotSub (s : Slot) (k : String) : Except PyErr JVal :=
  match s with
  | .error _ => .error (.typeError "exception object is not subscriptable")
  | .ok none => .error (.typeError "NoneType object is not subscriptable")
  | .ok (some v) => pySubS v k

/-- Python `slot.get(k, dflt)` on a gather slot. -/
def slotGet (s : Slot) (k : String) (dflt : JVal) : Except PyErr JVal :=
  match s with
  | .error _ => .error (.attributeError "exception object has no attribute get")
  | .ok none => .error (.attributeError "NoneType object has no attribute get")
  | .ok (some v) => pyGet v k dflt

/-- Python truthiness of a gather slot (exception objects are truthy). -/
def slotTruthy : Slot → Bool
  | .error _ => true
  | .ok none => false
  | .ok (some v) => jTruthy v

/-- Python `d[k]` lookup on a dict with `JVal` keys. -/
def pyDictFind {α : Type} (d : List (JVal × α)) (k : JVal) : Except PyErr α :=
  if !jHashable k then .error (.typeError "unhashable type")
  else
    match dictFind? d k with
    | some v => .ok v
    | none => .error (.keyError "key not found")

/-- Dict comprehension `(key tag) v for key in ws` over `JVal` keys. -/
def dictInit {α : Type} (v : α) (ws : List JVal) :
    Except PyErr (List (JVal × α)) :=
  ws.foldlM (fun d w => pyDictSet d w v) []

/- `DEFAULTS` constants consumed by the adapters (source lines 37-58). -/

def TRON_API_URL : String := "https://api.trongrid.io/v1/accounts/"

def TRON_USDT_CONTRACT : String := "TR7NHqjeKQxGTCi8q8ZY4pL8otSzgjLj6t"

def BSCSCAN_API_URL : String := "https://api.bscscan.com/api/"

def BSCSCAN_USDT_CONTRACT : String := "0x55d398326f99059ff775485246999027b3197955"

/-- A Python value passed to the `wallets` setter: a string, a list
(of arbitrary elements), or anything else. -/
inductive PyArg where
  | str (s : String)
  | list (l : List JVal)
  | other

/-- `''.join(value.split())`: remove every whitespace character. -/
def stripWs (s : String) : String :=
  String.mk (s.toList.filter (fun c => !c.isWhitespace))

/-- Split a character list at every separator character, keeping empty
chunks (Python `str.split(sep)` semantics: splitting the empty string
yields one empty chunk). -/
def splitOnChar (p : Char → Bool) (cs : List Char) : List (List Char) :=
  match cs with
  | [] => [[]]
  | c :: rest =>
    let r := splitOnChar p rest
    if p c then [] :: r
    else
      match r with
      | [] => [[c]]
      | t :: ts => (c :: t) :: ts

/-- The validation branch shared by the `wallets` setters of
`TronWalletReader` (source lines 329-335) and `BscScanWalletReader`
(lines 424-430): a string is de-whitespaced and split on commas; a list
is stored as-is with its elements unchecked; any other type raises
`ValueError`.  The `BscScanWalletReader` setter then only builds params
lists that embed each wallet as a dict value, adding no further failure
mode; the Tron setter additionally rebuilds its url dicts keyed by the
wallets (`tronWalletsSet`). -/
def walletsSet : PyArg → Except PyErr (List JVal)
  | .str s =>
    .ok ((splitOnChar (fun c => c == ',') (stripWs s).toList).map
      (fun cs => JVal.str (String.mk cs)))
  | .list l => .ok l
  | .other => .error (.valueError "Wallets must be string or list of strings.")

/-- `TronWalletReader.__fetch_urls` (source lines 339-352): one
`_get_raw_data` task per wallet with URL `self.url + wallet` and
correlation key `wallet_address`; `asyncio.gather(..., return_exceptions=True)`
returns one slot per task in task order whatever the completion order.
The per-task network outcome is an explicit input. -/
def tronFetchUrls (items : List (String × FetchOutcome)) : List Slot :=
  items.map (fun p =>
    getRawData (some TRON_API_URL) (some (TRON_API_URL ++ p.1)) .JSON p.2
      (some "wallet_address") (some p.1))

/-- `BscScanWalletReader.__fetch_urls` (source lines 448-461): same
dispatch shape with the fixed API URL and per-wallet query params. -/
def bscFetchUrls (items : List (String × FetchOutcome)) : List Slot :=
  items.map (fun p =>
    getRawData (some BSCSCAN_API_URL) (some BSCSCAN_API_URL) .JSON p.2
      (some "wallet_address") (some p.1))

/-- `next((item for item in balance[.data] if item[.trc20]), None)`
(source line 365). -/
def firstTruthyTrc20 : List JVal → Except PyErr (Option JVal)
  | [] => .ok none
  | it :: rest => do
    let t ← pySubS it "trc20"
    if jTruthy t then .ok (some it) else firstTruthyTrc20 rest

/-- `next((item.get(c, 0) for item in trc20[.trc20] if item.get(c, None)), 0)`
(source lines 366-367). -/
def firstContractVal (c : String) : List JVal → Except PyErr JVal
  | [] => .ok (.int 0)
  | it :: rest => do
    let g ← pyGet it c .null
    if jTruthy g then pyGet it c (.int 0)
    else firstContractVal c rest

/-- One iteration of the `for balance in raw_data` loop in
`TronWalletReader.get_balances` (source lines 360-367), in source
evaluation order: the provider failure branch assigns `-1` and logs;
the success branch extracts the tracked-contract balance (`0` when no
truthy `trc20` item or no entry for the contract is present).
(The Python `if trc20` truthiness test always sees a non-empty dict when
an item was found, so it is modelled by the `Option` match.) -/
def tronBalStep (c : String) (d : List (JVal × Int)) (s : Slot) :
    Except PyErr (List (JVal × Int)) := do
  let suc ← slotSub s "success"
  if !jTruthy suc then
    let wa ← slotSub s "wallet_address"
    let d1 ← pyDictSet d wa (-1)
    let _err ← slotSub s "error"
    let _wa2 ← slotSub s "wallet_address"
    return d1
  else
    let dataV ← slotSub s "data"
    let items ← pyIterate dataV
    let trc20 ← firstTruthyTrc20 items
    let v ←
      match trc20 with
      | none => pure (0 : Int)
      | some t => do
        let tl ← pySubS t "trc20"
        let tItems ← pyIterate tl
        let raw ← firstContractVal c tItems
        pyIntOf raw
    let wa ← slotSub s "wallet_address"
    pyDictSet d wa v

/-- `TronWalletReader.get_balances` (source lines 354-368): the result dict
starts as `0` for every configured wallet, then each gathered slot is
folded in. -/
def tronGetBalances (c : String) (wallets : List JVal) (slots : List Slot) :
    Except PyErr (List (JVal × Int)) := do
  let init ← dictInit (0 : Int) wallets
  slots.foldlM (tronBalStep c) init

/-- One iteration of the loop in `BscScanWalletReader.get_balances`
(source lines 469-475). -/
def bscBalStep (d : List (JVal × Int)) (s : Slot) :
    Except PyErr (List (JVal × Int)) := do
  let msg ← slotSub s "message"
  let mu ← pyUpper msg
  if mu == "OK" then
    let res ← slotSub s "result"
    let v ← pyIntOf res
    let wa ← slotSub s "wallet_address"
    pyDictSet d wa v
  else
    let _m ← slotGet s "message" (.str "Unknown error")
    let _wa ← slotSub s "wallet_address"
    let wa ← slotSub s "wallet_address"
    pyDictSet d wa (-1)

/-- `BscScanWalletReader.get_balances` (source lines 463-476). -/
def bscGetBalances (wallets : List JVal) (slots : List Slot) :
    Except PyErr (List (JVal × Int)) := do
  let init ← dictInit (0 : Int) wallets
  slots.foldlM bscBalStep init

/-- The normalized per-transfer record appended by `get_transactions`.
`timestamp` keeps the raw source value (`block_timestamp` in milliseconds
for Tron, `timeStamp` in seconds for BscScan); the `datetime` conversion
is not modelled. -/
structure TrnRecord where
  wallet : JVal
  timestamp : Int
  value : Int
deriving Repr

/-- One transfer of the inner `for trn in transactions[.data]` loop of
`TronWalletReader.get_transactions` (source lines 381-395).  The token
filter compares `token_info.address` against the hardcoded
`DEFAULTS.TRON_USDT_CONTRACT` constant (not the configured contract) and
upper-cases the symbol before comparing with `USDT`. -/
def tronTrnOne (s : Slot) (d : List (JVal × List TrnRecord)) (trn : JVal) :
    Except PyErr (List (JVal × List TrnRecord)) := do
  let ti ← pySubS trn "token_info"
  let addr ← pySubS ti "address"
  if !jBeq addr (.str TRON_USDT_CONTRACT) then
    return d
  else
    let ti2 ← pySubS trn "token_info"
    let sym ← pySubS ti2 "symbol"
    let symU ← pyUpper sym
    if symU != "USDT" then
      return d
    else
      let vRaw ← pySubS trn "value"
      let v0 ← pyIntOf vRaw
      let f ← pySubS trn "from"
      let wa ← slotSub s "wallet_address"
      let cv ←
        if jBeq f wa then do
          let t ← pySubS trn "to"
          pure (t, -v0)
        else
          pure (f, v0)
      let wa2 ← slotSub s "wallet_address"
      let cur ← pyDictFind d wa2
      let ts ← pySubS trn "block_timestamp"
      let tsn ←
        match ts with
        | .int n => pure n
        | _ => Except.error (.typeError "unsupported operand type for division")
      return dictSet d wa2 (cur ++ [⟨cv.1, tsn, cv.2⟩])

/-- One iteration of the outer loop of `TronWalletReader.get_transactions`
(source lines 376-395). -/
def tronTrnStep (d : List (JVal × List TrnRecord)) (s : Slot) :
    Except PyErr (List (JVal × List TrnRecord)) := do
  let suc ← slotGet s "success" (.bool false)
  if !jTruthy suc then
    let _e ← slotGet s "error" (.str "Unknown error")
    let _wa ← slotSub s "wallet_address"
    return d
  else
    let dataV ← slotSub s "data"
    let trns ← pyIterate dataV
    trns.foldlM (tronTrnOne s) d

/-- `TronWalletReader.get_transactions` (source lines 370-396).  The
configured `usdt_contract` is accepted (it is instance state) but never
consulted by this method; the filter uses the `DEFAULTS` constant. -/
def tronGetTransactions (_usdt_contract : String) (wallets : List JVal)
    (slots : List Slot) : Except PyErr (List (JVal × List TrnRecord)) := do
  let init ← dictInit ([] : List TrnRecord) wallets
  slots.foldlM tronTrnStep init

/-- One transfer of the inner loop of `BscScanWalletReader.get_transactions`
(source lines 489-502).  Only `tokenSymbol` is checked (the transfer row
contract address is never compared); the sender test is case-insensitive. -/
def bscTrnOne (s : Slot) (d : List (JVal × List TrnRecord)) (trn : JVal) :
    Except PyErr (List (JVal × List TrnRecord)) := do
  let sym ← pySubS trn "tokenSymbol"
  if !jBeq sym (.str "BSC-USD") then
    return d
  else
    let vRaw ← pySubS trn "value"
    let v0 ← pyIntOf vRaw
    let f ← pySubS trn "from"
    let fU ← pyUpper f
    let wa ← slotSub s "wallet_address"
    let waU ← pyUpper wa
    let cv ←
      if fU == waU then do
        let t ← pySubS trn "to"
        pure (t, -v0)
      else
        pure (f, v0)
    let wa2 ← slotSub s "wallet_address"
    let cur ← pyDictFind d wa2
    let ts ← pySubS trn "timeStamp"
    let tsn ← pyIntOf ts
    return dictSet d wa2 (cur ++ [⟨cv.1, tsn, cv.2⟩])

/-- One iteration of the outer loop of `BscScanWalletReader.get_transactions`
(source lines 484-502): the guard tests slot truthiness before the
`message` check, but the logging branch still subscripts the slot. -/
def bscTrnStep (d : List (JVal × List TrnRecord)) (s : Slot) :
    Except PyErr (List (JVal × List TrnRecord)) := do
  if !slotTruthy s then
    let _m ← slotGet s "message" (.str "Unknown error")
    let _wa ← slotSub s "wallet_address"
    return d
  else
    let msg ← slotSub s "message"
    let mu ← pyUpper msg
    if mu != "OK" then
      let _m ← slotGet s "message" (.str "Unknown error")
      let _wa ← slotSub s "wallet_address"
      return d
    else
      let resV ← slotSub s "result"
      let trns ← pyIterate resV
      trns.foldlM (bscTrnOne s) d

/-- `BscScanWalletReader.get_transactions` (source lines 478-503). -/
def bscGetTransactions (wallets : List JVal) (slots : List Slot) :
    Except PyErr (List (JVal × List TrnRecord)) := do
  let init ← dictInit ([] : List TrnRecord) wallets
  slots.foldlM bscTrnStep init

/-- Python `str(v)` for the scalar values that reach it in the source
(`str(data[0])` at line 271, applied after a truthiness filter).  The
exact `repr` of lists and dicts is not reproduced; a non-empty
placeholder preserves their truthiness and non-numeric shape. -/
def pyStr : JVal → String
  | .null => "None"
  | .bool true => "True"
  | .bool false => "False"
  | .int n => toString n
  | .str s => s
  | .arr _ => "<list repr>"
  | .obj _ => "<dict repr>"

/-- Python `a or b` on strings. -/
def pyOrStr (a b : String) : String :=
  if a != "" then a else b

/-- One of the per-wallet url dicts the Tron `wallets` setter rebuilds
(source lines 336-337): a dict comprehension keyed by each wallet, the
value being the api url, the wallet rendered by `str`, and `path`
appended; an unhashable wallet raises `TypeError` when used as a dict
key. -/
def tronUrlsOf (path : String) (ws : List JVal) :
    Except PyErr (List (JVal × String)) :=
  ws.foldlM (fun d w => pyDictSet d w (TRON_API_URL ++ pyStr w ++ path)) []

/-- The full `wallets` setter of `TronWalletReader` (source lines
328-337): the string/list validation, then the `urls` and `trnx_urls`
dict rebuilds keyed by each wallet. -/
def tronWalletsSet (a : PyArg) :
    Except PyErr (List JVal × List (JVal × String) × List (JVal × String)) := do
  let ws ← walletsSet a
  let urls ← tronUrlsOf "" ws
  let trnx ← tronUrlsOf "/transactions/trc20" ws
  return (ws, urls, trnx)

/-- `decimal.Decimal(s)` for plain decimal literals (optional sign, digits,
optional fraction).  Exponent forms, `NaN`/`Infinity` and underscores do
not occur in the embedded feeds and are rejected like other junk, with
`InvalidOperation`. -/
def pyDecimal (s : String) : Except PyErr Rat :=
  let t := trimChars s.toList
  let (neg, body) :=
    match t with
    | '-' :: rest => (true, rest)
    | '+' :: rest => (false, rest)
    | _ => (false, t)
  let signed : Nat → Nat → Rat := fun num den =>
    (if neg then -(num : Rat) else (num : Rat)) / (den : Rat)
  match splitOnChar (fun c => c == '.') body with
  | [ip] =>
    if !ip.isEmpty && ip.all Char.isDigit then
      .ok (signed (digitsVal ip) 1)
    else .error (.invalidOperation "invalid decimal literal")
  | [ip, fp] =>
    if (!ip.isEmpty || !fp.isEmpty) && ip.all Char.isDigit
        && fp.all Char.isDigit then
      .ok (signed (digitsVal ip * 10 ^ fp.length + digitsVal fp)
        (10 ^ fp.length))
    else .error (.invalidOperation "invalid decimal literal")
  | _ => .error (.invalidOperation "invalid decimal literal")

/-- Leap-year test of the proleptic Gregorian calendar (`datetime`
module). -/
def isLeapYear (y : Nat) : Bool :=
  y % 4 == 0 && (y % 100 != 0 || y % 400 == 0)

/-- Days in a month (`datetime._days_in_month`). -/
def daysInMonth (y m : Nat) : Nat :=
  if m == 2 then (if isLeapYear y then 29 else 28)
  else if m == 4 || m == 6 || m == 9 || m == 11 then 30
  else 31

/-- The value a successful `datetime.datetime.fromisoformat` call yields:
date and time components plus an optional fixed timezone offset
(`tzOffsetMicros`, in microseconds). -/
structure PyDateTime where
  year : Nat
  month : Nat
  day : Nat
  hour : Nat
  minute : Nat
  second : Nat
  microsecond : Nat
  tzOffsetMicros : Option Int
deriving Repr, DecidableEq

/-- A two-digit numeric component of an isoformat time string
(`int` applied to a two-character slice in `_parse_hh_mm_ss_ff`;
canonical components are two digits). -/
def twoDigitInt : List Char → Except PyErr (Nat × List Char)
  | a :: b :: rest =>
    if a.isDigit && b.isDigit then .ok (digitsVal [a, b], rest)
    else .error (.valueError "invalid literal for int")
  | _ => .error (.valueError "Incomplete time component")

/-- The fractional tail after the seconds component: empty, or a dot
followed by exactly three or six digits (`_parse_hh_mm_ss_ff`). -/
def parseMicro : List Char → Except PyErr Nat
  | [] => .ok 0
  | '.' :: rest =>
    if rest.length == 3 && rest.all Char.isDigit then .ok (digitsVal rest * 1000)
    else if rest.length == 6 && rest.all Char.isDigit then .ok (digitsVal rest)
    else .error (.valueError "Invalid microsecond component")
  | _ => .error (.valueError "Invalid microsecond component")

/-- CPython `datetime._parse_hh_mm_ss_ff`: a time of the shape
`HH`, `HH:MM`, `HH:MM:SS`, or `HH:MM:SS` with a fractional tail. -/
def parseHMSF (cs : List Char) : Except PyErr (Nat × Nat × Nat × Nat) := do
  let (hh, r1) ← twoDigitInt cs
  match r1 with
  | [] => return (hh, 0, 0, 0)
  | ':' :: r2 =>
    let (mm, r3) ← twoDigitInt r2
    match r3 with
    | [] => return (hh, mm, 0, 0)
    | ':' :: r4 =>
      let (ss, r5) ← twoDigitInt r4
      let ff ← parseMicro r5
      return (hh, mm, ss, ff)
    | _ => Except.error (.valueError "Invalid time separator")
  | _ => Except.error (.valueError "Invalid time separator")

/-- The timezone tail of an isoformat time string
(`_parse_isoformat_time`): its length must be 5, 8 or 15, it is parsed
with `_parse_hh_mm_ss_ff`, an all-zero offset is UTC, and the resulting
`timezone` offset must lie strictly between minus and plus 24 hours. -/
def parseTzOffset (isMinus : Bool) (tz : List Char) : Except PyErr Int := do
  if tz.length == 5 || tz.length == 8 || tz.length == 15 then
    let (th, tm, ts, tf) ← parseHMSF tz
    let total : Nat := ((th * 60 + tm) * 60 + ts) * 1000000 + tf
    if total < 86400000000 then
      if th == 0 && tm == 0 && ts == 0 && tf == 0 then .ok 0
      else .ok (if isMinus then -(total : Int) else (total : Int))
    else Except.error (.valueError "offset must be strictly between -24h and 24h")
  else Except.error (.valueError "Malformed time zone string")

/-- CPython `datetime._parse_isoformat_date` on canonical `YYYY-MM-DD`
strings. -/
def parseIsoDate : List Char → Except PyErr (Nat × Nat × Nat)
  | [y1, y2, y3, y4, s1, m1, m2, s2, d1, d2] =>
    if y1.isDigit && y2.isDigit && y3.isDigit && y4.isDigit
        && s1 == '-' && m1.isDigit && m2.isDigit
        && s2 == '-' && d1.isDigit && d2.isDigit then
      .ok (digitsVal [y1, y2, y3, y4], digitsVal [m1, m2], digitsVal [d1, d2])
    else .error (.valueError "Invalid isoformat string")
  | _ => .error (.valueError "Invalid isoformat string")

/-- `datetime.datetime.fromisoformat` as called at source line 272
(CPython `Lib/datetime.py`): the first ten characters are the date, the
eleventh (uninspected) the separator, the rest the time with an optional
timezone tail introduced by the first `-` (else the first `+`); the
`datetime` constructor then validates the component ranges.  Canonical
`isoformat` strings — the shape every supported CPython accepts — are
parsed; junk such as a bare `T` raises `ValueError` exactly as in the
library. -/
def pyFromIso (s : String) : Except PyErr PyDateTime := do
  let cs := s.toList
  let (y, mo, dy) ← parseIsoDate (cs.take 10)
  let tstr := cs.drop 11
  let (hh, mi, se, ff, tz) ←
    match tstr with
    | [] => pure (0, 0, 0, 0, (none : Option Int))
    | _ =>
      if tstr.length < 2 then
        Except.error (.valueError "Isoformat time too short")
      else
        let tzSplit : Option (Nat × Bool) :=
          match tstr.findIdx? (fun c => c == '-') with
          | some i => some (i, true)
          | none =>
            match tstr.findIdx? (fun c => c == '+') with
            | some i => some (i, false)
            | none => none
        match tzSplit with
        | none => do
          let (hh, mi, se, ff) ← parseHMSF tstr
          pure (hh, mi, se, ff, (none : Option Int))
        | some (i, isMinus) => do
          let (hh, mi, se, ff) ← parseHMSF (tstr.take i)
          let off ← parseTzOffset isMinus (tstr.drop (i + 1))
          pure (hh, mi, se, ff, some off)
  if 1 ≤ y ∧ y ≤ 9999 then
    if 1 ≤ mo ∧ mo ≤ 12 then
      if 1 ≤ dy ∧ dy ≤ daysInMonth y mo then
        if hh ≤ 23 ∧ mi ≤ 59 ∧ se ≤ 59 then
          return ⟨y, mo, dy, hh, mi, se, ff, tz⟩
        else Except.error (.valueError "time component out of range")
      else Except.error (.valueError "day is out of range for month")
    else Except.error (.valueError "month must be in 1..12")
  else Except.error (.valueError "year is out of range")

/-- A `datetime` value as stored in a result record: `datetime.now()`
(the `XeReader`/`GarantexReader` constructors) or a parsed timestamp. -/
inductive PyTimestamp where
  | now
  | dt (t : PyDateTime)
deriving Repr, DecidableEq

/-- `MOEXMetadata` (source lines 77-80); field values are taken verbatim
from the securities rows. -/
structure MOEXMetadata where
  shortname : JVal
  secname : JVal
deriving Repr

/-- `CurrencyRate` (source lines 69-74).  `updated_at` holds the
`datetime` value the reader stores: `datetime.now()` for `XeReader`,
the `fromisoformat` result for `MOEXReader`. -/
structure CurrencyRate where
  symbol : JVal
  name : JVal
  rate : Rat
  updated_at : PyTimestamp
deriving Repr

/-- Python `v[i]` for a non-negative literal index `i`. -/
def pyIdx (v : JVal) (i : Nat) : Except PyErr JVal :=
  match v with
  | .arr xs =>
    match xs.get? i with
    | some x => .ok x
    | none => .error (.indexError "list index out of range")
  | .str s =>
    match s.toList.get? i with
    | some c => .ok (.str (String.mk [c]))
    | none => .error (.indexError "string index out of range")
  | .obj _ => .error (.keyError "key not found")
  | _ => .error (.typeError "object is not subscriptable")

/-- The securities-metadata dict comprehension of `MOEXReader.get_rates`
(source lines 267-268): keyed by `data[0]`, with the (always-redundant)
`if json_data` filter made explicit as `cond`. -/
def moexBuildMeta (cond : Bool) (rows : List JVal) :
    Except PyErr (List (JVal × MOEXMetadata)) :=
  rows.foldlM
    (fun d row =>
      if cond then do
        let k ← pyIdx row 0
        let sn ← pyIdx row 1
        let fn ← pyIdx row 2
        pyDictSet d k ⟨sn, fn⟩
      else pure d)
    []

/-- One marketdata row of the result comprehension of
`MOEXReader.get_rates` (source lines 269-273), in evaluation order:
filter (`json_data` truthy, `data[0]` truthy, `data[2] in self.symbols` —
a substring test on the joined symbols string), then key `data[2]`, then
the `CurrencyRate` arguments (metadata joined by `data[2]`, price via
`Decimal(str(data[0]) or .0.)`, timestamp `data[3]` through
`datetime.fromisoformat`, which raises `ValueError` on a malformed cell
and `TypeError` on a non-string cell). -/
def moexMdStep (symbols : String) (cond : Bool)
    (meta : List (JVal × MOEXMetadata)) (d : List (JVal × CurrencyRate))
    (row : JVal) : Except PyErr (List (JVal × CurrencyRate)) := do
  if !cond then
    return d
  else
    let p ← pyIdx row 0
    if !jTruthy p then
      return d
    else
      let id2 ← pyIdx row 2
      let inSym ←
        match id2 with
        | .str s => pure (strContains symbols s)
        | _ => Except.error (.typeError "in requires string as left operand")
      if !inSym then
        return d
      else
        let k ← pyIdx row 2
        let id3 ← pyIdx row 2
        let m1 ← pyDictFind meta id3
        let id4 ← pyIdx row 2
        let m2 ← pyDictFind meta id4
        let p2 ← pyIdx row 0
        let rate ← pyDecimal (pyOrStr (pyStr p2) "0")
        let ts ← pyIdx row 3
        let tsv ←
          match ts with
          | .str s => pyFromIso s
          | _ => Except.error (.typeError "fromisoformat argument must be str")
        pyDictSet d k ⟨m1.shortname, m2.secname, rate, .dt tsv⟩

/-- `MOEXReader.get_rates` (source lines 260-273); `symbols` is the
configured `self.symbols` string (a comma-joined list of symbol names). -/
def moexGetRates (symbols : String) (slot : Slot) :
    Except PyErr (List (JVal × CurrencyRate)) := do
  let sec ← slotSub slot "securities"
  let secData ← pySubS sec "data"
  let secRows ← pyIterate secData
  let meta ← moexBuildMeta (slotTruthy slot) secRows
  let md ← slotSub slot "marketdata"
  let mdData ← pySubS md "data"
  let mdRows ← pyIterate mdData
  mdRows.foldlM (moexMdStep symbols (slotTruthy slot) meta) []

/-- Python `str.split()` with no separator: split on whitespace runs,
dropping empty tokens. -/
def pySplitWs (s : String) : List String :=
  ((splitOnChar Char.isWhitespace s.toList).filter
    (fun cs => !cs.isEmpty)).map (fun cs => String.mk cs)

/-- Python `l[i]` on a list for a non-negative index. -/
def listIdx {α : Type} (l : List α) (i : Nat) : Except PyErr α :=
  match l.get? i with
  | some x => .ok x
  | none => .error (.indexError "list index out of range")

/-- `s.replace(',', '')`. -/
def stripCommas (s : String) : String :=
  String.mk (s.toList.filter (fun c => c != ','))

/-- Does a decoded JSON object have a binding for `k`?  (Python `k in d`.) -/
def jHasKey (v : JVal) (k : String) : Bool :=
  match v with
  | .obj kvs => kvs.any (fun p => p.1 == k)
  | _ => false

/-- Total lookup: `d[k]` defaulting to `null` (used only to state
extraction results for payloads whose well-formedness guarantees the
access succeeds in the code). -/
def jGetD (v : JVal) (k : String) : JVal :=
  match v with
  | .obj kvs => (objLookup kvs k).getD .null
  | _ => .null

def exIsOk {α : Type} : Except PyErr α → Bool
  | .ok _ => true
  | .error _ => false

def exGetD {α : Type} (e : Except PyErr α) (d : α) : α :=
  match e with
  | .ok x => x
  | .error _ => d

/-- `XeReader.get_rates` (source lines 573-589).  Each element of `pages`
is one fetched page after `html.fromstring` and the XPath query, which are
treated as an oracle: `none` models a failed fetch (`_get_raw_data`
returned `None`, rejected by `html.fromstring`), `some ms` the list of
text nodes matched by the structural query.  Per page, in source order:
`rate[0]` (line 580, raising `IndexError` on zero matches), the
`if not len(meta_rate): continue` guard (581-582), the symbol from tokens
1 and -1 (583), and the rate `Decimal` from token -2 with commas stripped
(586).  `updated_at` is `datetime.now()` (`PyTimestamp.now`). -/
def xeGetRates (pages : List (Option (List String))) :
    Except PyErr (List (JVal × CurrencyRate)) :=
  pages.foldlM
    (fun d pg => do
      let ms ←
        match pg with
        | none => Except.error (.valueError "document is empty")
        | some ms => pure ms
      let first ← listIdx ms 0
      let meta := pySplitWs first
      if meta.isEmpty then
        return d
      else
        let m1 ← listIdx meta 1
        let mLast ← listIdx meta (meta.length - 1)
        let symbol := m1 ++ "/" ++ mLast
        let m2 ← listIdx meta (meta.length - 2)
        let rate ← pyDecimal (stripCommas m2)
        pyDictSet d (.str symbol) ⟨.str symbol, .str symbol, rate, .now⟩)
    []

/-- The C3 counterexample payload: a decoded JSON object that already
contains the correlation key `wallet_address`. -/
def collisionPayload : JVal :=
  .obj [("wallet_address", .str "STALE"), ("success", .bool true)]

def isObjB : JVal → Bool
  | .obj _ => true
  | _ => false

def isStrB : JVal → Bool
  | .str _ => true
  | _ => false

def isIntB : JVal → Bool
  | .int _ => true
  | _ => false

/-- Well-formedness of a Tron transfer row: every field the loop body of
`get_transactions` may touch is present with a usable type. -/
def tronTrnOk (trn : JVal) : Bool :=
  isObjB (jGetD trn "token_info") &&
  (jHasKey (jGetD trn "token_info") "address" &&
  (isStrB (jGetD (jGetD trn "token_info") "symbol") &&
  (exIsOk (pyIntOf (jGetD trn "value")) &&
  (jHasKey trn "from" &&
  (jHasKey trn "to" &&
  isIntB (jGetD trn "block_timestamp"))))))

/-- The token filter the Tron loop actually applies (source lines
382-383): the transfer contract address must equal the hardcoded
`DEFAULTS.TRON_USDT_CONTRACT` (the configured contract plays no role)
and the symbol upper-cases to `USDT` (a case-insensitive match). -/
def tronKeepB (trn : JVal) : Bool :=
  jBeq (jGetD (jGetD trn "token_info") "address") (.str TRON_USDT_CONTRACT) &&
  strUpper (pyStr (jGetD (jGetD trn "token_info") "symbol")) == "USDT"

/-- The record the Tron loop appends for a kept transfer (source lines
385-395): counterparty swapped to the receiver and amount negated when
the queried wallet is the sender. -/
def tronRecOf (wa : JVal) (trn : JVal) : TrnRecord :=
  let v := exGetD (pyIntOf (jGetD trn "value")) 0
  let bt := match jGetD trn "block_timestamp" with | .int n => n | _ => 0
  if jBeq (jGetD trn "from") wa then ⟨jGetD trn "to", bt, -v⟩
  else ⟨jGetD trn "from", bt, v⟩

/-- A successful Tron transactions envelope for wallet `a` (provider
shape plus the injected correlation field). -/
def tronSuccessResp (a : String) (trs : List JVal) : JVal :=
  .obj [("success", .bool true), ("wallet_address", .str a),
        ("data", .arr trs)]

/-- A USDT transfer of 100 base units from `f` to `t` as the Tron
indexer reports it. -/
def tronTransfer (f t : String) : JVal :=
  .obj [("token_info", .obj [("address", .str TRON_USDT_CONTRACT),
          ("symbol", .str "USDT")]),
        ("value", .str "100"), ("from", .str f), ("to", .str t),
        ("block_timestamp", .int 0)]

/-- C6 counterexample transfer: default-contract address but lowercase
symbol, reported for a reader configured with a different contract. -/
def lowTrn : JVal :=
  .obj [("token_info", .obj [("address", .str TRON_USDT_CONTRACT),
          ("symbol", .str "usdt")]),
        ("value", .str "100"), ("from", .str "B"), ("to", .str "A"),
        ("block_timestamp", .int 0)]

/-- Well-formedness of a BscScan transfer row. -/
def bscTrnOk (trn : JVal) : Bool :=
  jHasKey trn "tokenSymbol" &&
  (exIsOk (pyIntOf (jGetD trn "value")) &&
  (isStrB (jGetD trn "from") &&
  (jHasKey trn "to" &&
  exIsOk (pyIntOf (jGetD trn "timeStamp")))))

/-- The token filter the BscScan loop actually applies (source line 490):
only the exact `tokenSymbol`; the transfer contract address field is
never compared. -/
def bscKeepB (trn : JVal) : Bool :=
  jBeq (jGetD trn "tokenSymbol") (.str "BSC-USD")

/-- The record the BscScan loop appends for a kept transfer (source
lines 492-502); the sender comparison is case-insensitive. -/
def bscRecOf (wa : String) (trn : JVal) : TrnRecord :=
  let v := exGetD (pyIntOf (jGetD trn "value")) 0
  let tsv := exGetD (pyIntOf (jGetD trn "timeStamp")) 0
  if strUpper (pyStr (jGetD trn "from")) == strUpper wa then
    ⟨jGetD trn "to", tsv, -v⟩
  else ⟨jGetD trn "from", tsv, v⟩

/-- A successful BscScan envelope for wallet `a`. -/
def bscSuccessResp (a : String) (trs : List JVal) : JVal :=
  .obj [("message", .str "OK"), ("wallet_address", .str a),
        ("result", .arr trs)]

/-- A BSC-USD transfer of 100 base units from `f` to `t`. -/
def bscTransfer (f t : String) : JVal :=
  .obj [("tokenSymbol", .str "BSC-USD"), ("value", .str "100"),
        ("from", .str f), ("to", .str t), ("timeStamp", .str "0")]

/-- C6 counterexample transfer for BscScan: right symbol, foreign
contract address. -/
def foreignTrn : JVal :=
  .obj [("tokenSymbol", .str "BSC-USD"), ("contractAddress", .str "XYZ"),
        ("value", .str "100"), ("from", .str "C"), ("to", .str "A"),
        ("timeStamp", .str "5")]

/-- Well-formedness of an entry of a `trc20` token-balance list: a dict
whose binding for the tracked contract, when present and truthy, is
int-convertible. -/
def tronEntryOk (c : String) (t : JVal) : Bool :=
  isObjB t && (!jTruthy (jGetD t c) || exIsOk (pyIntOf (jGetD t c)))

/-- Well-formedness of an item of the `data` array of a Tron
account-balance payload: a dict with a `trc20` binding that is either a
list of well-formed entries or falsy (never iterated in that case). -/
def tronItemOk (c : String) (item : JVal) : Bool :=
  isObjB item &&
  (jHasKey item "trc20" &&
  (match jGetD item "trc20" with
   | .arr ts => ts.all (tronEntryOk c)
   | v => !jTruthy v))

/-- Well-formedness of one Tron balance response (provider envelope with
the injected correlation field). -/
def tronRespOk (c : String) (r : JVal) : Bool :=
  jHasKey r "success" &&
  (isStrB (jGetD r "wallet_address") &&
  (if jTruthy (jGetD r "success") then
     (match jGetD r "data" with
      | .arr items => items.all (tronItemOk c)
      | _ => false)
   else jHasKey r "error"))

/-- The `data` item the Tron balance loop selects (source line 365). -/
def tronFoundItem (items : List JVal) : Option JVal :=
  items.find? (fun it => jTruthy (jGetD it "trc20"))

/-- The balance value `TronWalletReader.get_balances` assigns for a
well-formed response (source lines 361-367). -/
def tronValOf (c : String) (r : JVal) : Int :=
  if !jTruthy (jGetD r "success") then -1
  else
    let items := match jGetD r "data" with | .arr xs => xs | _ => []
    match tronFoundItem items with
    | none => 0
    | some it =>
      let ts := match jGetD it "trc20" with | .arr xs => xs | _ => []
      match ts.find? (fun t => jTruthy (jGetD t c)) with
      | none => 0
      | some t => exGetD (pyIntOf (jGetD t c)) 0

/-- A successful Tron response with no truthy entry for the tracked
contract anywhere in its token-balance lists. -/
def tronNoContract (c : String) (r : JVal) : Bool :=
  match jGetD r "data" with
  | .arr items =>
    items.all (fun it =>
      match jGetD it "trc20" with
      | .arr ts => ts.all (fun t => !jTruthy (jGetD t c))
      | _ => true)
  | _ => true

/-- Well-formedness of one BscScan balance response. -/
def bscRespOk (r : JVal) : Bool :=
  isStrB (jGetD r "message") &&
  (isStrB (jGetD r "wallet_address") &&
  (if strUpper (pyStr (jGetD r "message")) == "OK"
   then exIsOk (pyIntOf (jGetD r "result")) else true))

/-- The balance value `BscScanWalletReader.get_balances` assigns for a
well-formed response (source lines 470-475). -/
def bscValOf (r : JVal) : Int :=
  if strUpper (pyStr (jGetD r "message")) == "OK"
  then exGetD (pyIntOf (jGetD r "result")) 0 else -1

/-- A mocked MOEX payload built from securities and marketdata rows. -/
def moexPayload (secRows mdRows : List JVal) : JVal :=
  .obj [("securities", .obj [("data", .arr secRows)]),
        ("marketdata", .obj [("data", .arr mdRows)])]

/-- Total row-cell access: `row[i]` defaulting to `null` (used to state
extraction results for rows whose well-formedness guarantees the access
succeeds). -/
def jIdxD (row : JVal) (i : Nat) : JVal :=
  match row with
  | .arr xs => (xs.get? i).getD .null
  | _ => .null

/-- The filter `MOEXReader.get_rates` actually applies to a marketdata
row (line 273): truthy price cell and row id a SUBSTRING of the
comma-joined configured symbols string (not membership in the symbol
set). -/
def moexKeep (symbols : String) (row : JVal) : Bool :=
  jTruthy (jIdxD row 0) &&
  (match jIdxD row 2 with
   | .str s => strContains symbols s
   | _ => false)

/-- The securities metadata mapping built by the comprehension at source
line 267 (keyed by `data[0]`, later rows overriding earlier ones). -/
def moexMetaOf (rows : List JVal) : List (JVal × MOEXMetadata) :=
  rows.foldl
    (fun d row => dictSet d (jIdxD row 0) ⟨jIdxD row 1, jIdxD row 2⟩) []

/-- The timestamp `get_rates` parses for a kept marketdata row. -/
def moexTsOf (row : JVal) : PyDateTime :=
  match jIdxD row 3 with
  | .str s => exGetD (pyFromIso s) ⟨1, 1, 1, 0, 0, 0, 0, none⟩
  | _ => ⟨1, 1, 1, 0, 0, 0, 0, none⟩

/-- The `fromisoformat` call on a marketdata timestamp cell succeeds:
the cell is a string holding a valid isoformat timestamp. -/
def moexTsOkB : JVal → Bool
  | .str s => exIsOk (pyFromIso s)
  | _ => false

/-- The `CurrencyRate` `get_rates` builds for a kept marketdata row
(metadata joined by the row id, price through `Decimal`, timestamp
through `fromisoformat`). -/
def moexCROf (meta : List (JVal × MOEXMetadata)) (row : JVal) :
    CurrencyRate :=
  let m := (dictFind? meta (jIdxD row 2)).getD ⟨.null, .null⟩
  ⟨m.shortname, m.secname,
   exGetD (pyDecimal (pyOrStr (pyStr (jIdxD row 0)) "0")) 0,
   .dt (moexTsOf row)⟩

def isArrB : JVal → Bool
  | .arr _ => true
  | _ => false

/-- Number of cells of a row (`0` for non-lists). -/
def arrLen : JVal → Nat
  | .arr xs => xs.length
  | _ => 0

/-- Well-formedness of a securities row: a list of at least three cells
whose first (the metadata key) is hashable. -/
def moexSecRowOk (row : JVal) : Bool :=
  isArrB row && (decide (3 ≤ arrLen row) && jHashable (jIdxD row 0))

/-- Well-formedness of a marketdata row relative to the configured
symbols string and the metadata built from the securities rows. -/
def moexMdRowOk (symbols : String) (meta : List (JVal × MOEXMetadata))
    (row : JVal) : Bool :=
  isArrB row &&
  (decide (4 ≤ arrLen row) &&
  (if jTruthy (jIdxD row 0) then
     isStrB (jIdxD row 2) &&
     (if moexKeep symbols row then
        (dictFind? meta (jIdxD row 2)).isSome &&
        (exIsOk (pyDecimal (pyOrStr (pyStr (jIdxD row 0)) "0")) &&
         moexTsOkB (jIdxD row 3))
      else true)
   else true))

/-- Pairwise distinctness (by Python `==`) of a key list. -/
def keysFresh : List JVal → Bool
  | [] => true
  | k :: ks => ks.all (fun k2 => !jBeq k k2) && keysFresh ks

/-- Scenario securities rows: three instruments. -/
def secRows3 : List JVal :=
  [.arr [.str "USD000UTSTOM", .str "USD", .str "Dollar TOM"],
   .arr [.str "CNYRUB_TOM", .str "CNY", .str "Yuan TOM"],
   .arr [.str "EUR_RUB__TOM", .str "EUR", .str "Euro TOM"]]

/-- Scenario marketdata rows: quotes for only two of the requested
symbols. -/
def mdRows3 : List JVal :=
  [.arr [.str "81.5", .str "10:00:00", .str "USD000UTSTOM",
     .str "2024-01-01 10:00:00"],
   .arr [.str "11.2", .str "10:00:00", .str "CNYRUB_TOM",
     .str "2024-01-01 10:00:00"]]

/-- A successful Tron balance response for `WA` whose token lists have no
entry for the tracked contract. -/
def tronRespNoEntry : JVal :=
  .obj [("success", .bool true), ("wallet_address", .str "WA"),
        ("data", .arr [.obj [("trc20", .arr [.obj [("OTHER", .str "7")]])]])]

/-- A failed Tron balance response for `WB`. -/
def tronRespFail : JVal :=
  .obj [("success", .bool false), ("wallet_address", .str "WB"),
        ("error", .str "boom")]

/-- A failed BscScan balance response for `WC`. -/
def bscRespFail : JVal :=
  .obj [("message", .str "NOTOK"), ("wallet_address", .str "WC"),
        ("result", .str "0")]

/-! ### Helper lemmas -/

theorem getRawData_of_truthy_inst (instUrl callUrl : Option String)
    (mode : UrlReaderMode) (o : FetchOutcome) (tk tn : Option String)
    (h : strTruthyO instUrl = true) :
    getRawData instUrl callUrl mode o tk tn
      = .ok (tryBody mode o tk tn).result := by
  simp [getRawData, h]

theorem tronBase_truthy : strTruthyO (some TRON_API_URL) = true := by decide

theorem bscBase_truthy : strTruthyO (some BSCSCAN_API_URL) = true := by decide

/-- Line 200-201 with a fresh correlation key: the key is injected
(whether or not the decoded object is empty, hence truthy). -/
theorem tryBody_inject (kvs : List (String × JVal)) (k : String)
    (tn : Option String) (h : kvs.any (fun p => p.1 == k) = false) :
    tryBody .JSON (.payload (.obj kvs)) (some k) tn
      = ⟨some (.obj (objSet kvs k (jOfOptStr tn))), none⟩ := by
  cases kvs with
  | nil => simp [tryBody, jTruthy, jSetItemStep]
  | cons p rest => simp [tryBody, jTruthy, pyContainsB, h, jSetItemStep]

/-- Line 196-197 with a duplicate correlation key: the `KeyError` is
raised (recorded as the in-flight exception) and the result stays the
decoded payload. -/
theorem tryBody_collision (kvs : List (String × JVal)) (k : String)
    (tn : Option String) (hne : kvs ≠ [])
    (hkey : kvs.any (fun p => p.1 == k) = true) :
    tryBody .JSON (.payload (.obj kvs)) (some k) tn
      = ⟨some (.obj kvs), some (.keyError "Task key already exist in JSON data.")⟩ := by
  cases kvs with
  | nil => exact absurd rfl hne
  | cons p rest => simp [tryBody, jTruthy, pyContainsB, hkey]

theorem objLookup_objSet_fresh (kvs : List (String × JVal)) (k : String)
    (v : JVal) (h : kvs.any (fun p => p.1 == k) = false) :
    objLookup (objSet kvs k v) k = some v := by
  induction kvs with
  | nil => simp [objSet, objLookup]
  | cons p rest ih =>
    rw [List.any_cons, Bool.or_eq_false_iff] at h
    simp [objSet, objLookup, h.1, ih h.2]

/-! ### C10 -/

/-- C10: once a non-empty URL is available from the call site or the
instance, `_get_raw_data` never propagates an exception to its caller:
whatever the request outcome and whatever exception the try body leaves
in flight (transport error, decode error, correlation-key collision,
failed injection), the `return` in the `finally` block resolves the call
to a returned value — the current `self.__result` (decoded payload or
`None`). -/
theorem c10_fetch_always_resolves (instUrl callUrl : Option String)
    (mode : UrlReaderMode) (o : FetchOutcome) (tk tn : Option String)
    (h : (strTruthyO callUrl || strTruthyO instUrl) = true) :
    getRawData instUrl callUrl mode o tk tn
      = .ok (tryBody mode o tk tn).result := by
  simp [getRawData, h]

/-- Witness for C10 at a collision input (the try body has a `KeyError`
in flight, the call still resolves to the payload). -/
theorem c10_witness :
    (strTruthyO (some "u") || strTruthyO none) = true ∧
    getRawData none (some "u") .JSON
        (.payload (.obj [("wallet_address", .str "w")]))
        (some "wallet_address") (some "x")
      = .ok (tryBody .JSON (.payload (.obj [("wallet_address", .str "w")]))
          (some "wallet_address") (some "x")).result :=
  ⟨by decide,
   c10_fetch_always_resolves none (some "u") .JSON
     (.payload (.obj [("wallet_address", .str "w")]))
     (some "wallet_address") (some "x") (by decide)⟩

/-! ### C2 -/

/-- C2: evaluation of the code at a batch containing one transport-failed
request.  `_get_raw_data` does resolve the failed request to `None`
(first conjunct), but every batch-level adapter operation then raises on
that slot — `None` is subscripted, or `.get` is called on it — instead of
degrading the item to a sentinel domain value: the failure propagates out
of the adapter operation and aborts the whole batch. -/
theorem c2_none_slot_crashes_batch :
    tronFetchUrls [("W", .failure (.typeError "ClientConnectorError"))]
      = [Except.ok none] ∧
    tronGetBalances TRON_USDT_CONTRACT [.str "W"]
        (tronFetchUrls [("W", .failure (.typeError "ClientConnectorError"))])
      = .error (.typeError "NoneType object is not subscriptable") ∧
    bscGetBalances [.str "W"] [Except.ok none]
      = .error (.typeError "NoneType object is not subscriptable") ∧
    tronGetTransactions TRON_USDT_CONTRACT [.str "W"] [Except.ok none]
      = .error (.attributeError "NoneType object has no attribute get") ∧
    bscGetTransactions [.str "W"] [Except.ok none]
      = .error (.attributeError "NoneType object has no attribute get") :=
  ⟨rfl, rfl, rfl, rfl, rfl⟩

/-! ### C7 -/

/-- C7: evaluation of `XeReader.get_rates` at a batch whose second page
yields zero XPath matches: `rate[0]` (line 580) raises `IndexError`
before the zero-length guard at line 581 can skip the page, so
`get_rates` aborts — the first page's already-computed entry is lost too,
and the caller receives a fault rather than a shorter mapping. -/
theorem c7_zero_matches_aborts :
    xeGetRates [some ["1.00 USD = 91.50 RUB"]]
      = .ok [(.str "USD/RUB",
          ⟨.str "USD/RUB", .str "USD/RUB", exGetD (pyDecimal "91.50") 0, .now⟩)] ∧
    xeGetRates [some ["1.00 USD = 91.50 RUB"], some []]
      = .error (.indexError "list index out of range") :=
  ⟨rfl, rfl⟩

/-! ### C3 -/

/-- C3 counterexample: fetching wallet `A` when the decoded payload
already contains `wallet_address` does NOT produce a failed batch slot:
the slot resolves to the original truthy payload (not `None`, not an
exception), and its correlation field still holds the stale value, so
downstream the item is processed as a mis-attributed success rather than
being treated as a failed item. -/
theorem c3_counterexample :
    tronFetchUrls [("A", .payload collisionPayload)]
      = [Except.ok (some collisionPayload)] ∧
    slotTruthy (Except.ok (some collisionPayload)) = true ∧
    jGetD collisionPayload "wallet_address" = .str "STALE" :=
  ⟨rfl, rfl, rfl⟩

/-- C3 amended: when a structured fetch with correlation key
`wallet_address` decodes a truthy payload that already contains that key,
the `KeyError` raised at line 197 is caught and then swallowed by the
`finally` return: the slot resolves to the original payload unchanged
(with its stale correlation value) rather than to a failed slot, and a
sibling item of the same batch is processed normally to completion. -/
theorem c3_collision_keeps_payload (kvs : List (String × JVal))
    (tn : Option String) (a b : String) (ob : List (String × JVal))
    (hne : kvs ≠ [])
    (hkey : kvs.any (fun p => p.1 == "wallet_address") = true)
    (hob : ob.any (fun p => p.1 == "wallet_address") = false) :
    (tryBody .JSON (.payload (.obj kvs)) (some "wallet_address") tn).exc
      = some (.keyError "Task key already exist in JSON data.") ∧
    tronFetchUrls [(a, .payload (.obj kvs)), (b, .payload (.obj ob))]
      = [.ok (some (.obj kvs)),
         .ok (some (.obj (objSet ob "wallet_address" (.str b))))] := by
  constructor
  · rw [tryBody_collision kvs "wallet_address" tn hne hkey]
  · show [getRawData (some TRON_API_URL) (some (TRON_API_URL ++ a)) .JSON
        (.payload (.obj kvs)) (some "wallet_address") (some a),
      getRawData (some TRON_API_URL) (some (TRON_API_URL ++ b)) .JSON
        (.payload (.obj ob)) (some "wallet_address") (some b)] = _
    rw [getRawData_of_truthy_inst _ _ _ _ _ _ tronBase_truthy,
      getRawData_of_truthy_inst _ _ _ _ _ _ tronBase_truthy,
      tryBody_collision kvs "wallet_address" (some a) hne hkey,
      tryBody_inject ob "wallet_address" (some b) hob]
    rfl

/-- Witness for C3 (amended) at a concrete two-item batch. -/
theorem c3_witness :
    ([("wallet_address", JVal.str "STALE")] ≠ ([] : List (String × JVal))) ∧
    ((tryBody .JSON (.payload (.obj [("wallet_address", .str "STALE")]))
        (some "wallet_address") (some "A")).exc
      = some (.keyError "Task key already exist in JSON data.") ∧
    tronFetchUrls [("A", .payload (.obj [("wallet_address", .str "STALE")])),
        ("B", .payload (.obj [("success", .bool true)]))]
      = [.ok (some (.obj [("wallet_address", .str "STALE")])),
         .ok (some (.obj (objSet [("success", .bool true)] "wallet_address" (.str "B"))))]) :=
  ⟨List.cons_ne_nil _ _,
   c3_collision_keeps_payload [("wallet_address", .str "STALE")] (some "A")
     "A" "B" [("success", .bool true)] (List.cons_ne_nil _ _) (by decide) (by decide)⟩

/-! ### C1 -/

/-- C1: for a batch of N targets, `__fetch_urls` returns exactly N result
slots, one per target in task order (which `asyncio.gather` guarantees
whatever the completion order), and any slot whose request decoded to a
JSON object not already carrying the correlation key holds that payload
with `wallet_address -> originating wallet` injected, so each successful
payload is attributable to its originating key; likewise for the BscScan
reader. -/
theorem c1_batch_slot_attribution
    (items bitems : List (String × FetchOutcome)) (i j : Nat) (a b : String)
    (kvs lvs : List (String × JVal))
    (hi : items[i]? = some (a, .payload (.obj kvs)))
    (hk : kvs.any (fun p => p.1 == "wallet_address") = false)
    (hj : bitems[j]? = some (b, .payload (.obj lvs)))
    (hl : lvs.any (fun p => p.1 == "wallet_address") = false) :
    (tronFetchUrls items).length = items.length ∧
    (bscFetchUrls bitems).length = bitems.length ∧
    (tronFetchUrls items)[i]?
      = some (.ok (some (.obj (objSet kvs "wallet_address" (.str a))))) ∧
    objLookup (objSet kvs "wallet_address" (.str a)) "wallet_address"
      = some (.str a) ∧
    (bscFetchUrls bitems)[j]?
      = some (.ok (some (.obj (objSet lvs "wallet_address" (.str b))))) ∧
    objLookup (objSet lvs "wallet_address" (.str b)) "wallet_address"
      = some (.str b) := by
  refine ⟨by simp [tronFetchUrls], by simp [bscFetchUrls], ?_,
    objLookup_objSet_fresh _ _ _ hk, ?_, objLookup_objSet_fresh _ _ _ hl⟩
  · rw [tronFetchUrls, List.getElem?_map, hi]
    rw [Option.map_some', getRawData_of_truthy_inst _ _ _ _ _ _ tronBase_truthy,
      tryBody_inject kvs "wallet_address" (some a) hk]
    rfl
  · rw [bscFetchUrls, List.getElem?_map, hj]
    rw [Option.map_some', getRawData_of_truthy_inst _ _ _ _ _ _ bscBase_truthy,
      tryBody_inject lvs "wallet_address" (some b) hl]
    rfl

/-- Witness for C1 at concrete singleton batches. -/
theorem c1_witness :
    ([("A", FetchOutcome.payload (.obj [("success", JVal.bool true)]))][0]?
      = some ("A", .payload (.obj [("success", .bool true)]))) ∧
    ((tronFetchUrls [("A", .payload (.obj [("success", .bool true)]))]).length = 1 ∧
     (bscFetchUrls [("B", .payload (.obj []))]).length = 1 ∧
     (tronFetchUrls [("A", .payload (.obj [("success", .bool true)]))])[0]?
       = some (.ok (some (.obj (objSet [("success", .bool true)] "wallet_address" (.str "A"))))) ∧
     objLookup (objSet [("success", .bool true)] "wallet_address" (.str "A")) "wallet_address"
       = some (.str "A") ∧
     (bscFetchUrls [("B", .payload (.obj []))])[0]?
       = some (.ok (some (.obj (objSet [] "wallet_address" (.str "B"))))) ∧
     objLookup (objSet [] "wallet_address" (.str "B")) "wallet_address"
       = some (.str "B")) :=
  ⟨rfl,
   c1_batch_slot_attribution
     [("A", .payload (.obj [("success", .bool true)]))]
     [("B", .payload (.obj []))] 0 0 "A" "B"
     [("success", .bool true)] []
     rfl (by decide) rfl (by decide)⟩

/-! ### Bridging lemmas for well-formed payloads -/

theorem ok_bind {α β : Type} (a : α) (f : α → Except PyErr β) :
    (Except.ok a >>= f) = f a := rfl

theorem pure_ok {α : Type} (a : α) :
    (pure a : Except PyErr α) = .ok a := rfl

theorem isObjB_spec {v : JVal} (h : isObjB v = true) : ∃ kvs, v = .obj kvs := by
  cases v <;> simp [isObjB] at h ⊢

theorem isStrB_spec {v : JVal} (h : isStrB v = true) : ∃ s, v = .str s := by
  cases v <;> simp [isStrB] at h ⊢

theorem isIntB_spec {v : JVal} (h : isIntB v = true) : ∃ n, v = .int n := by
  cases v <;> simp [isIntB] at h ⊢

theorem exIsOk_spec {α : Type} {e : Except PyErr α} (h : exIsOk e = true) :
    ∃ x, e = .ok x := by
  cases e <;> simp [exIsOk] at h ⊢

theorem objLookup_isSome_of_any {kvs : List (String × JVal)} {k : String}
    (h : kvs.any (fun p => p.1 == k) = true) :
    (objLookup kvs k).isSome = true := by
  induction kvs with
  | nil => simp at h
  | cons p rest ih =>
    rw [List.any_cons] at h
    cases hp : (p.1 == k) with
    | true => simp [objLookup, hp]
    | false =>
      rw [hp] at h
      rw [Bool.false_or] at h
      simp [objLookup, hp, ih h]

theorem pySubS_of_hasKey {v : JVal} {k : String} (h : jHasKey v k = true) :
    pySubS v k = .ok (jGetD v k) := by
  cases v with
  | obj kvs =>
    have hs : (objLookup kvs k).isSome = true :=
      objLookup_isSome_of_any (by simpa [jHasKey] using h)
    obtain ⟨x, hx⟩ := Option.isSome_iff_exists.mp hs
    simp [pySubS, jGetD, hx]
  | null => simp [jHasKey] at h
  | bool b => simp [jHasKey] at h
  | int n => simp [jHasKey] at h
  | str s => simp [jHasKey] at h
  | arr xs => simp [jHasKey] at h

theorem pySubS_of_jGetD {v : JVal} {k : String} (hnn : jGetD v k ≠ .null) :
    pySubS v k = .ok (jGetD v k) := by
  cases v with
  | obj kvs =>
    cases hx : objLookup kvs k with
    | none => rw [jGetD] at hnn; simp [hx] at hnn
    | some x => simp [pySubS, jGetD, hx]
  | null => simp [jGetD] at hnn
  | bool b => simp [jGetD] at hnn
  | int n => simp [jGetD] at hnn
  | str s => simp [jGetD] at hnn
  | arr xs => simp [jGetD] at hnn

/-! ### Dict lemmas -/

theorem dictFind?_dictSet_self {α : Type} (d : List (JVal × α)) (k : JVal)
    (v : α) (hkk : jBeq k k = true) :
    dictFind? (dictSet d k v) k = some v := by
  induction d with
  | nil => simp [dictSet, dictFind?, hkk]
  | cons p rest ih =>
    obtain ⟨k1, v1⟩ := p
    cases hp : jBeq k1 k with
    | true => simp [dictSet, hp, dictFind?]
    | false => simp [dictSet, hp, dictFind?, ih]

theorem dictSet_dictSet {α : Type} (d : List (JVal × α)) (k : JVal)
    (v w : α) (hkk : jBeq k k = true) :
    dictSet (dictSet d k v) k w = dictSet d k w := by
  induction d with
  | nil => simp [dictSet, hkk]
  | cons p rest ih =>
    obtain ⟨k1, v1⟩ := p
    cases hp : jBeq k1 k with
    | true => simp [dictSet, hp]
    | false => simp [dictSet, hp, ih]

theorem dictSet_self {α : Type} (d : List (JVal × α)) (k : JVal) (v : α)
    (h : dictFind? d k = some v) : dictSet d k v = d := by
  induction d with
  | nil => simp [dictFind?] at h
  | cons p rest ih =>
    obtain ⟨k1, v1⟩ := p
    cases hp : jBeq k1 k with
    | true =>
      rw [dictFind?] at h
      rw [hp] at h
      simp at h
      simp [dictSet, hp, h]
    | false =>
      rw [dictFind?] at h
      rw [hp] at h
      simp at h
      simp [dictSet, hp, ih h]

/-! ### Per-transfer processing lemmas -/

/-- One well-formed Tron transfer row is processed to exactly the record
`tronRecOf` when it passes the actual token filter `tronKeepB`, and is
skipped otherwise. -/
theorem tronTrnOne_wf (s : Slot) (wa : JVal)
    (hwa : slotSub s "wallet_address" = .ok wa) (hh : jHashable wa = true)
    (d : List (JVal × List TrnRecord)) (cur : List TrnRecord)
    (hcur : dictFind? d wa = some cur)
    (trn : JVal) (hwf : tronTrnOk trn = true) :
    tronTrnOne s d trn
      = .ok (if tronKeepB trn then dictSet d wa (cur ++ [tronRecOf wa trn])
          else d) := by
  simp only [tronTrnOk, Bool.and_eq_true] at hwf
  obtain ⟨h1, h2, h3, h4, h5, h6, h7⟩ := hwf
  obtain ⟨tkv, hT⟩ := isObjB_spec h1
  obtain ⟨sym, hsym⟩ := isStrB_spec h3
  obtain ⟨v, hv⟩ := exIsOk_spec h4
  obtain ⟨bt, hbt⟩ := isIntB_spec h7
  have hsub_ti : pySubS trn "token_info" = .ok (jGetD trn "token_info") :=
    pySubS_of_jGetD (by rw [hT]; intro hc; cases hc)
  have hsub_addr : pySubS (jGetD trn "token_info") "address"
      = .ok (jGetD (jGetD trn "token_info") "address") := pySubS_of_hasKey h2
  have hsub_sym : pySubS (jGetD trn "token_info") "symbol"
      = .ok (.str sym) := by
    rw [← hsym]
    exact pySubS_of_jGetD (by rw [hsym]; intro hc; cases hc)
  have hsub_val : pySubS trn "value" = .ok (jGetD trn "value") :=
    pySubS_of_jGetD (by
      intro hc
      rw [hc] at hv
      simp [pyIntOf] at hv)
  have hsub_from : pySubS trn "from" = .ok (jGetD trn "from") :=
    pySubS_of_hasKey h5
  have hsub_to : pySubS trn "to" = .ok (jGetD trn "to") :=
    pySubS_of_hasKey h6
  have hsub_bt : pySubS trn "block_timestamp" = .ok (.int bt) := by
    rw [← hbt]
    exact pySubS_of_jGetD (by rw [hbt]; intro hc; cases hc)
  simp only [tronTrnOne, hsub_ti, ok_bind, hsub_addr]
  cases hker : jBeq (jGetD (jGetD trn "token_info") "address")
      (.str TRON_USDT_CONTRACT) with
  | false =>
    simp [hker, tronKeepB, pure_ok]
  | true =>
    simp only [hker, Bool.not_true, Bool.false_eq_true, if_false,
      hsub_sym, ok_bind, pyUpper]
    cases hsu : (strUpper sym == "USDT") with
    | false =>
      simp [bne, hsu, tronKeepB, hker, pyStr, hsym, pure_ok, ok_bind]
    | true =>
      simp only [bne, hsu, Bool.not_true, Bool.false_eq_true, if_false,
        hsub_val, ok_bind, hv, hsub_from, hwa, pure_ok]
      have hrec : tronRecOf wa trn
          = if jBeq (jGetD trn "from") wa
            then ⟨jGetD trn "to", bt, -v⟩ else ⟨jGetD trn "from", bt, v⟩ := by
        rw [tronRecOf, hbt]
        simp [hv, exGetD]
      have hkeep : tronKeepB trn = true := by
        simp [tronKeepB, hker, pyStr, hsym, hsu]
      cases hf : jBeq (jGetD trn "from") wa with
      | true =>
        simp only [hf, if_true, hsub_to, ok_bind, pure_ok, hwa,
          pyDictFind, hh, Bool.not_true, hcur, hsub_bt]
        simp [hkeep, hrec, hf, ok_bind]
      | false =>
        simp only [hf, Bool.false_eq_true, if_false, pure_ok, ok_bind, hwa,
          pyDictFind, hh, Bool.not_true, hcur, hsub_bt]
        simp [hkeep, hrec, hf, ok_bind]

/-- The inner transfer loop of `TronWalletReader.get_transactions` over
well-formed transfers appends exactly the records of the transfers kept
by the actual token filter to the queried wallet's list. -/
theorem tronTrnLoop_wf (s : Slot) (wa : JVal)
    (hwa : slotSub s "wallet_address" = .ok wa) (hh : jHashable wa = true)
    (hkk : jBeq wa wa = true) :
    ∀ (trs : List JVal) (d : List (JVal × List TrnRecord))
      (cur : List TrnRecord),
      (∀ t ∈ trs, tronTrnOk t = true) → dictFind? d wa = some cur →
      trs.foldlM (tronTrnOne s) d
        = .ok (dictSet d wa (cur ++ trs.filterMap
            (fun t => if tronKeepB t then some (tronRecOf wa t) else none))) := by
  intro trs
  induction trs with
  | nil =>
    intro d cur _ hcur
    simp [List.foldlM, dictSet_self d wa cur hcur, pure_ok]
  | cons t rest ih =>
    intro d cur hwf hcur
    have ht := hwf t (List.mem_cons_self t rest)
    have hrest : ∀ x ∈ rest, tronTrnOk x = true :=
      fun x hx => hwf x (List.mem_cons_of_mem t hx)
    rw [List.foldlM_cons, tronTrnOne_wf s wa hwa hh d cur hcur t ht]
    cases hk : tronKeepB t with
    | true =>
      rw [show (if true = true then dictSet d wa (cur ++ [tronRecOf wa t])
          else d) = dictSet d wa (cur ++ [tronRecOf wa t]) from rfl]
      rw [ok_bind,
        ih (dictSet d wa (cur ++ [tronRecOf wa t])) (cur ++ [tronRecOf wa t])
          hrest (dictFind?_dictSet_self d wa _ hkk),
        dictSet_dictSet d wa _ _ hkk]
      simp [hk]
    | false =>
      rw [show (if false = true then dictSet d wa (cur ++ [tronRecOf wa t])
          else d) = d from rfl]
      rw [ok_bind, ih d cur hrest hcur]
      simp [hk]

/-- `TronWalletReader.get_transactions` for one wallet with a successful
well-formed envelope: the resulting list is exactly the kept transfers,
direction-normalized. -/
theorem tronSingleWalletTrns (c : String) (a : String) (trs : List JVal)
    (hwf : ∀ t ∈ trs, tronTrnOk t = true) :
    tronGetTransactions c [.str a] [.ok (some (tronSuccessResp a trs))]
      = .ok [(.str a, trs.filterMap
          (fun t => if tronKeepB t then some (tronRecOf (.str a) t) else none))] := by
  have hloop := tronTrnLoop_wf (.ok (some (tronSuccessResp a trs))) (.str a)
    rfl rfl (jBeq_str_self a) trs [(.str a, [])] []
    hwf (by simp [dictFind?, jBeq_str_self])
  simp only [tronGetTransactions]
  rw [show dictInit ([] : List TrnRecord) [JVal.str a]
      = .ok [(.str a, [])] from rfl, ok_bind]
  rw [List.foldlM_cons]
  simp only [tronTrnStep]
  rw [show slotGet (Except.ok (some (tronSuccessResp a trs))) "success" (.bool false)
      = .ok (.bool true) from rfl, ok_bind]
  rw [show slotSub (Except.ok (some (tronSuccessResp a trs))) "data"
      = .ok (.arr trs) from rfl]
  simp only [jTruthy, Bool.not_true, Bool.false_eq_true, if_false, ok_bind,
    pyIterate]
  rw [hloop]
  simp [dictSet, jBeq_str_self, List.foldlM]

/-- One well-formed BscScan transfer row is processed to exactly
`bscRecOf` when it passes the symbol-only filter `bscKeepB`, and skipped
otherwise. -/
theorem bscTrnOne_wf (s : Slot) (waS : String)
    (hwa : slotSub s "wallet_address" = .ok (.str waS))
    (d : List (JVal × List TrnRecord)) (cur : List TrnRecord)
    (hcur : dictFind? d (.str waS) = some cur)
    (trn : JVal) (hwf : bscTrnOk trn = true) :
    bscTrnOne s d trn
      = .ok (if bscKeepB trn
          then dictSet d (.str waS) (cur ++ [bscRecOf waS trn]) else d) := by
  simp only [bscTrnOk, Bool.and_eq_true] at hwf
  obtain ⟨h1, h2, h3, h4, h5⟩ := hwf
  obtain ⟨v, hv⟩ := exIsOk_spec h2
  obtain ⟨f, hfrom⟩ := isStrB_spec h3
  obtain ⟨tsv, htv⟩ := exIsOk_spec h5
  have hsub_sym : pySubS trn "tokenSymbol" = .ok (jGetD trn "tokenSymbol") :=
    pySubS_of_hasKey h1
  have hsub_val : pySubS trn "value" = .ok (jGetD trn "value") :=
    pySubS_of_jGetD (by intro hc; rw [hc] at hv; simp [pyIntOf] at hv)
  have hsub_from : pySubS trn "from" = .ok (.str f) := by
    rw [← hfrom]
    exact pySubS_of_jGetD (by rw [hfrom]; intro hc; cases hc)
  have hsub_to : pySubS trn "to" = .ok (jGetD trn "to") := pySubS_of_hasKey h4
  have hsub_ts : pySubS trn "timeStamp" = .ok (jGetD trn "timeStamp") :=
    pySubS_of_jGetD (by intro hc; rw [hc] at htv; simp [pyIntOf] at htv)
  simp only [bscTrnOne, hsub_sym, ok_bind]
  cases hks : jBeq (jGetD trn "tokenSymbol") (.str "BSC-USD") with
  | false => simp [hks, bscKeepB, pure_ok]
  | true =>
    simp only [hks, Bool.not_true, Bool.false_eq_true, if_false, hsub_val,
      ok_bind, hv, hsub_from, pyUpper, hwa]
    have hrec : bscRecOf waS trn
        = if (strUpper f == strUpper waS) = true
          then ⟨jGetD trn "to", tsv, -v⟩ else ⟨.str f, tsv, v⟩ := by
      rw [bscRecOf]
      simp [hv, htv, exGetD, pyStr, hfrom]
    have hkeep : bscKeepB trn = true := by simp [bscKeepB, hks]
    cases hf : (strUpper f == strUpper waS) with
    | true =>
      simp only [hf, if_true, hsub_to, ok_bind, pure_ok, hwa, pyDictFind,
        jHashable, Bool.not_true, hcur, hsub_ts, htv]
      simp [hkeep, hrec, hf, ok_bind]
    | false =>
      simp only [hf, Bool.false_eq_true, if_false, pure_ok, ok_bind, hwa,
        pyDictFind, jHashable, Bool.not_true, hcur, hsub_ts, htv]
      simp [hkeep, hrec, hf, ok_bind]

/-- The inner transfer loop of `BscScanWalletReader.get_transactions`. -/
theorem bscTrnLoop_wf (s : Slot) (waS : String)
    (hwa : slotSub s "wallet_address" = .ok (.str waS)) :
    ∀ (trs : List JVal) (d : List (JVal × List TrnRecord))
      (cur : List TrnRecord),
      (∀ t ∈ trs, bscTrnOk t = true) → dictFind? d (.str waS) = some cur →
      trs.foldlM (bscTrnOne s) d
        = .ok (dictSet d (.str waS) (cur ++ trs.filterMap
            (fun t => if bscKeepB t then some (bscRecOf waS t) else none))) := by
  intro trs
  induction trs with
  | nil =>
    intro d cur _ hcur
    simp [List.foldlM, dictSet_self d (.str waS) cur hcur, pure_ok]
  | cons t rest ih =>
    intro d cur hwf hcur
    have ht := hwf t (List.mem_cons_self t rest)
    have hrest : ∀ x ∈ rest, bscTrnOk x = true :=
      fun x hx => hwf x (List.mem_cons_of_mem t hx)
    rw [List.foldlM_cons, bscTrnOne_wf s waS hwa d cur hcur t ht]
    cases hk : bscKeepB t with
    | true =>
      rw [show (if true = true
          then dictSet d (.str waS) (cur ++ [bscRecOf waS t]) else d)
          = dictSet d (.str waS) (cur ++ [bscRecOf waS t]) from rfl]
      rw [ok_bind,
        ih (dictSet d (.str waS) (cur ++ [bscRecOf waS t]))
          (cur ++ [bscRecOf waS t]) hrest
          (dictFind?_dictSet_self d (.str waS) _ (jBeq_str_self waS)),
        dictSet_dictSet d (.str waS) _ _ (jBeq_str_self waS)]
      simp [hk]
    | false =>
      rw [show (if false = true
          then dictSet d (.str waS) (cur ++ [bscRecOf waS t]) else d)
          = d from rfl]
      rw [ok_bind, ih d cur hrest hcur]
      simp [hk]

/-- `BscScanWalletReader.get_transactions` for one wallet with a
successful well-formed envelope. -/
theorem bscSingleWalletTrns (a : String) (trs : List JVal)
    (hwf : ∀ t ∈ trs, bscTrnOk t = true) :
    bscGetTransactions [.str a] [.ok (some (bscSuccessResp a trs))]
      = .ok [(.str a, trs.filterMap
          (fun t => if bscKeepB t then some (bscRecOf a t) else none))] := by
  have hloop := bscTrnLoop_wf (.ok (some (bscSuccessResp a trs))) a
    rfl trs [(.str a, [])] [] hwf (by simp [dictFind?, jBeq_str_self])
  simp only [bscGetTransactions]
  rw [show dictInit ([] : List TrnRecord) [JVal.str a]
      = .ok [(.str a, [])] from rfl, ok_bind]
  rw [List.foldlM_cons]
  simp only [bscTrnStep]
  rw [show slotTruthy (Except.ok (some (bscSuccessResp a trs))) = true from rfl]
  rw [show slotSub (Except.ok (some (bscSuccessResp a trs))) "message"
      = .ok (.str "OK") from rfl]
  simp only [Bool.not_true, Bool.false_eq_true, if_false, ok_bind, pyUpper]
  rw [show (strUpper "OK" != "OK") = false from rfl]
  simp only [Bool.false_eq_true, if_false]
  rw [show slotSub (Except.ok (some (bscSuccessResp a trs))) "result"
      = .ok (.arr trs) from rfl]
  simp only [ok_bind, pyIterate]
  rw [hloop]
  simp [dictSet, jBeq_str_self, List.foldlM]

/-! ### C6 -/

/-- C6 counterexample: a Tron reader configured with contract
`CUSTOM-CONTRACT` still keeps a transfer whose `token_info.address` is the
hardcoded default contract (not the configured one) and whose symbol is
the non-exact lowercase `usdt`; a BscScan reader keeps a transfer whose
row contract address `XYZ` is not the tracked BSC-USD contract, because
only `tokenSymbol` is compared.  This refutes filtering by exact match of
the configured contract address and symbol. -/
theorem c6_counterexample :
    tronGetTransactions "CUSTOM-CONTRACT" [.str "A"]
        [.ok (some (tronSuccessResp "A" [lowTrn]))]
      = .ok [(.str "A", [⟨.str "B", 0, 100⟩])] ∧
    jGetD (jGetD lowTrn "token_info") "address" = .str TRON_USDT_CONTRACT ∧
    TRON_USDT_CONTRACT ≠ "CUSTOM-CONTRACT" ∧
    jGetD (jGetD lowTrn "token_info") "symbol" = .str "usdt" ∧
    ("usdt" : String) ≠ "USDT" ∧
    bscGetTransactions [.str "A"]
        [.ok (some (bscSuccessResp "A" [foreignTrn]))]
      = .ok [(.str "A", [⟨.str "C", 5, 100⟩])] ∧
    jGetD foreignTrn "contractAddress" = .str "XYZ" ∧
    ("XYZ" : String) ≠ BSCSCAN_USDT_CONTRACT :=
  ⟨rfl, rfl, by decide, rfl, by decide, rfl, rfl, by decide⟩

/-- C6 amended: for well-formed successful envelopes, the transaction
lists returned by `get_transactions` consist of exactly the transfers
passing the filters the code actually applies — for Tron, transfer
contract address equal to the hardcoded `DEFAULTS.TRON_USDT_CONTRACT`
(regardless of the configured contract) and symbol matching `USDT`
case-insensitively; for BscScan, `tokenSymbol` exactly `BSC-USD` with the
transfer contract address never checked. -/
theorem c6_token_filter (c : String) (a b : String)
    (trs qrs : List JVal)
    (hwf : ∀ t ∈ trs, tronTrnOk t = true)
    (hqwf : ∀ t ∈ qrs, bscTrnOk t = true) :
    tronGetTransactions c [.str a] [.ok (some (tronSuccessResp a trs))]
      = .ok [(.str a, trs.filterMap
          (fun t => if tronKeepB t then some (tronRecOf (.str a) t) else none))] ∧
    bscGetTransactions [.str b] [.ok (some (bscSuccessResp b qrs))]
      = .ok [(.str b, qrs.filterMap
          (fun t => if bscKeepB t then some (bscRecOf b t) else none))] :=
  ⟨tronSingleWalletTrns c a trs hwf, bscSingleWalletTrns b qrs hqwf⟩

/-- Witness for C6 (amended) at concrete transfers. -/
theorem c6_witness :
    (∀ t ∈ [tronTransfer "S" "R"], tronTrnOk t = true) ∧
    (tronGetTransactions "CFG" [.str "A"]
        [.ok (some (tronSuccessResp "A" [tronTransfer "S" "R"]))]
      = .ok [(.str "A", [tronTransfer "S" "R"].filterMap
          (fun t => if tronKeepB t then some (tronRecOf (.str "A") t) else none))] ∧
    bscGetTransactions [.str "A"]
        [.ok (some (bscSuccessResp "A" [bscTransfer "S" "R"]))]
      = .ok [(.str "A", [bscTransfer "S" "R"].filterMap
          (fun t => if bscKeepB t then some (bscRecOf "A" t) else none))]) :=
  ⟨fun t ht => by rw [List.mem_singleton] at ht; subst ht; rfl,
   c6_token_filter "CFG" "A" "A" [tronTransfer "S" "R"] [bscTransfer "S" "R"]
     (fun t ht => by rw [List.mem_singleton] at ht; subst ht; rfl)
     (fun t ht => by rw [List.mem_singleton] at ht; subst ht; rfl)⟩

/-! ### C5 -/

/-- C5: direction normalization — a transfer of 100 from wallet `A` to
wallet `B` (of the tracked token) yields, when `A` is queried, the record
`(counterparty B, amount -100)`, and when `B` is queried, the record
`(counterparty A, amount +100)`; for BscScan the sender comparison is
case-insensitive, so the wallets are assumed distinct after
upper-casing. -/
theorem c5_direction_normalization (A B : String) (hAB : A ≠ B)
    (hABu : strUpper A ≠ strUpper B) :
    tronGetTransactions TRON_USDT_CONTRACT [.str A]
        [.ok (some (tronSuccessResp A [tronTransfer A B]))]
      = .ok [(.str A, [⟨.str B, 0, -100⟩])] ∧
    tronGetTransactions TRON_USDT_CONTRACT [.str B]
        [.ok (some (tronSuccessResp B [tronTransfer A B]))]
      = .ok [(.str B, [⟨.str A, 0, 100⟩])] ∧
    bscGetTransactions [.str A]
        [.ok (some (bscSuccessResp A [bscTransfer A B]))]
      = .ok [(.str A, [⟨.str B, 0, -100⟩])] ∧
    bscGetTransactions [.str B]
        [.ok (some (bscSuccessResp B [bscTransfer A B]))]
      = .ok [(.str B, [⟨.str A, 0, 100⟩])] := by
  have hwfT : ∀ t ∈ [tronTransfer A B], tronTrnOk t = true := by
    intro t ht
    rw [List.mem_singleton] at ht
    subst ht
    rfl
  have hwfB : ∀ t ∈ [bscTransfer A B], bscTrnOk t = true := by
    intro t ht
    rw [List.mem_singleton] at ht
    subst ht
    rfl
  have hkT : tronKeepB (tronTransfer A B) = true := rfl
  have hkB : bscKeepB (bscTransfer A B) = true := rfl
  refine ⟨?_, ?_, ?_, ?_⟩
  · rw [tronSingleWalletTrns TRON_USDT_CONTRACT A [tronTransfer A B] hwfT]
    have hr : tronRecOf (.str A) (tronTransfer A B) = ⟨.str B, 0, -100⟩ := by
      rw [show tronRecOf (.str A) (tronTransfer A B)
          = if jBeq (.str A) (.str A)
            then (⟨.str B, 0, -100⟩ : TrnRecord)
            else ⟨.str A, 0, 100⟩ from rfl]
      simp [jBeq_str_self]
    simp [hkT, hr]
  · rw [tronSingleWalletTrns TRON_USDT_CONTRACT B [tronTransfer A B] hwfT]
    have hr : tronRecOf (.str B) (tronTransfer A B) = ⟨.str A, 0, 100⟩ := by
      rw [show tronRecOf (.str B) (tronTransfer A B)
          = if jBeq (.str A) (.str B)
            then (⟨.str B, 0, -100⟩ : TrnRecord)
            else ⟨.str A, 0, 100⟩ from rfl]
      simp [jBeq_str_of_ne hAB]
    simp [hkT, hr]
  · rw [bscSingleWalletTrns A [bscTransfer A B] hwfB]
    have hr : bscRecOf A (bscTransfer A B) = ⟨.str B, 0, -100⟩ := by
      rw [show bscRecOf A (bscTransfer A B)
          = if strUpper A == strUpper A
            then (⟨.str B, 0, -100⟩ : TrnRecord)
            else ⟨.str A, 0, 100⟩ from rfl]
      simp
    simp [hkB, hr]
  · rw [bscSingleWalletTrns B [bscTransfer A B] hwfB]
    have hr : bscRecOf B (bscTransfer A B) = ⟨.str A, 0, 100⟩ := by
      rw [show bscRecOf B (bscTransfer A B)
          = if strUpper A == strUpper B
            then (⟨.str B, 0, -100⟩ : TrnRecord)
            else ⟨.str A, 0, 100⟩ from rfl]
      simp [hABu]
    simp [hkB, hr]

/-- Witness for C5 at concrete distinct wallets. -/
theorem c5_witness :
    (("WA" : String) ≠ "WB") ∧ strUpper "WA" ≠ strUpper "WB" ∧
    (tronGetTransactions TRON_USDT_CONTRACT [.str "WA"]
        [.ok (some (tronSuccessResp "WA" [tronTransfer "WA" "WB"]))]
      = .ok [(.str "WA", [⟨.str "WB", 0, -100⟩])] ∧
    tronGetTransactions TRON_USDT_CONTRACT [.str "WB"]
        [.ok (some (tronSuccessResp "WB" [tronTransfer "WA" "WB"]))]
      = .ok [(.str "WB", [⟨.str "WA", 0, 100⟩])] ∧
    bscGetTransactions [.str "WA"]
        [.ok (some (bscSuccessResp "WA" [bscTransfer "WA" "WB"]))]
      = .ok [(.str "WA", [⟨.str "WB", 0, -100⟩])] ∧
    bscGetTransactions [.str "WB"]
        [.ok (some (bscSuccessResp "WB" [bscTransfer "WA" "WB"]))]
      = .ok [(.str "WB", [⟨.str "WA", 0, 100⟩])]) :=
  ⟨by decide, by decide,
   c5_direction_normalization "WA" "WB" (by decide) (by decide)⟩

/-! ### Balance processing lemmas (C4) -/

theorem dictFind?_append {α : Type} (d1 d2 : List (JVal × α)) (k : JVal) :
    dictFind? (d1 ++ d2) k
      = match dictFind? d1 k with
        | some v => some v
        | none => dictFind? d2 k := by
  induction d1 with
  | nil => simp [dictFind?]
  | cons p rest ih =>
    obtain ⟨k1, v1⟩ := p
    cases hp : jBeq k1 k with
    | true => simp [dictFind?, hp]
    | false => simp [dictFind?, hp, ih]

theorem dictSet_skip {α : Type} (d1 d2 : List (JVal × α)) (k : JVal) (v : α)
    (h : dictFind? d1 k = none) :
    dictSet (d1 ++ d2) k v = d1 ++ dictSet d2 k v := by
  induction d1 with
  | nil => simp
  | cons p rest ih =>
    obtain ⟨k1, v1⟩ := p
    rw [dictFind?] at h
    cases hp : jBeq k1 k with
    | true => rw [hp] at h; simp at h
    | false =>
      rw [hp] at h
      simp only [Bool.false_eq_true, if_false] at h
      simp [dictSet, hp, ih h]

/-- `firstTruthyTrc20` over well-formed items finds the same item as the
specification-side `tronFoundItem`. -/
theorem firstTruthyTrc20_wf (items : List JVal)
    (h : ∀ it ∈ items, (isObjB it && jHasKey it "trc20") = true) :
    firstTruthyTrc20 items = .ok (tronFoundItem items) := by
  induction items with
  | nil => simp [firstTruthyTrc20, tronFoundItem, List.find?]
  | cons it rest ih =>
    have hit := h it (List.mem_cons_self it rest)
    rw [Bool.and_eq_true] at hit
    have hsub : pySubS it "trc20" = .ok (jGetD it "trc20") :=
      pySubS_of_hasKey hit.2
    have hrest : ∀ x ∈ rest, (isObjB x && jHasKey x "trc20") = true :=
      fun x hx => h x (List.mem_cons_of_mem it hx)
    rw [firstTruthyTrc20, hsub, ok_bind]
    cases ht : jTruthy (jGetD it "trc20") with
    | true => simp [tronFoundItem, List.find?_cons, ht]
    | false => simp [tronFoundItem, List.find?_cons, ht, ih hrest]

/-- `firstContractVal` over well-formed entries yields the first truthy
binding for the contract (or the literal `0`). -/
theorem firstContractVal_wf (c : String) (ts : List JVal)
    (h : ∀ t ∈ ts, tronEntryOk c t = true) :
    firstContractVal c ts
      = .ok (match ts.find? (fun t => jTruthy (jGetD t c)) with
          | none => .int 0
          | some t => jGetD t c) := by
  induction ts with
  | nil => simp [firstContractVal, List.find?]
  | cons t rest ih =>
    have htt := h t (List.mem_cons_self t rest)
    rw [tronEntryOk, Bool.and_eq_true] at htt
    obtain ⟨tkv, hobj⟩ := isObjB_spec htt.1
    have hrest : ∀ x ∈ rest, tronEntryOk c x = true :=
      fun x hx => h x (List.mem_cons_of_mem t hx)
    have hget0 : pyGet t c .null = .ok (jGetD t c) := by
      rw [hobj]; simp [pyGet, jGetD]
    rw [firstContractVal, hget0, ok_bind]
    cases ht : jTruthy (jGetD t c) with
    | true =>
      have hpresent : (objLookup tkv c).isSome = true := by
        cases hx : objLookup tkv c with
        | none => rw [hobj] at ht; simp [jGetD, hx, jTruthy] at ht
        | some x => rfl
      obtain ⟨x, hx⟩ := Option.isSome_iff_exists.mp hpresent
      rw [List.find?_cons, ht]
      rw [hobj]
      simp [pyGet, jGetD, hx]
    | false => simp [List.find?_cons, ht, ih hrest]

/-- One well-formed Tron balance response updates the wallet dict at its
correlation key with exactly `tronValOf`. -/
theorem tronBalStep_wf (c : String) (d : List (JVal × Int)) (r : JVal)
    (hwf : tronRespOk c r = true) :
    tronBalStep c d (.ok (some r))
      = .ok (dictSet d (jGetD r "wallet_address") (tronValOf c r)) := by
  rw [tronRespOk, Bool.and_eq_true, Bool.and_eq_true] at hwf
  obtain ⟨h1, h2, h3⟩ := hwf
  obtain ⟨a, ha⟩ := isStrB_spec h2
  have hsub_suc : pySubS r "success" = .ok (jGetD r "success") :=
    pySubS_of_hasKey h1
  have hsub_wa : pySubS r "wallet_address" = .ok (.str a) := by
    rw [← ha]
    exact pySubS_of_jGetD (by rw [ha]; intro hc; cases hc)
  rw [tronBalStep]
  rw [show slotSub (Except.ok (some r)) "success" = pySubS r "success" from rfl,
    hsub_suc, ok_bind]
  cases hsuc : jTruthy (jGetD r "success") with
  | false =>
    rw [hsuc, if_neg Bool.false_ne_true] at h3
    have hsub_err : pySubS r "error" = .ok (jGetD r "error") :=
      pySubS_of_hasKey h3
    simp [show slotSub (Except.ok (some r)) "wallet_address"
        = pySubS r "wallet_address" from rfl,
      show slotSub (Except.ok (some r)) "error" = pySubS r "error" from rfl,
      hsub_wa, hsub_err, ok_bind, pure_ok, pyDictSet, jHashable,
      tronValOf, hsuc, ha]
  | true =>
    rw [hsuc, if_pos rfl] at h3
    have hdata : ∃ items, jGetD r "data" = .arr items
        ∧ ∀ it ∈ items, tronItemOk c it = true := by
      cases hd : jGetD r "data" with
      | arr items =>
        rw [hd] at h3
        exact ⟨items, rfl, by simpa [List.all_eq_true] using h3⟩
      | null => rw [hd] at h3; simp at h3
      | bool b => rw [hd] at h3; simp at h3
      | int n => rw [hd] at h3; simp at h3
      | str s => rw [hd] at h3; simp at h3
      | obj kvs => rw [hd] at h3; simp at h3
    obtain ⟨items, hdd, hitems⟩ := hdata
    have hsub_data : pySubS r "data" = .ok (.arr items) := by
      rw [← hdd]
      exact pySubS_of_jGetD (by rw [hdd]; intro hc; cases hc)
    have hitems2 : ∀ it ∈ items, (isObjB it && jHasKey it "trc20") = true := by
      intro it hit
      have := hitems it hit
      rw [tronItemOk, Bool.and_eq_true, Bool.and_eq_true] at this
      simp [this.1, this.2.1]
    rw [show slotSub (Except.ok (some r)) "data" = pySubS r "data" from rfl,
      hsub_data]
    simp only [Bool.not_true, Bool.false_eq_true, if_false, ok_bind, pyIterate]
    rw [firstTruthyTrc20_wf items hitems2, ok_bind]
    have hval : tronValOf c r
        = (match tronFoundItem items with
           | none => 0
           | some it =>
             match (match jGetD it "trc20" with | .arr xs => xs | _ => []).find?
                 (fun t => jTruthy (jGetD t c)) with
             | none => 0
             | some t => exGetD (pyIntOf (jGetD t c)) 0) := by
      rw [tronValOf, hsuc, hdd]
      rfl
    cases hfi : tronFoundItem items with
    | none =>
      simp only []
      rw [hval, hfi]
      rw [show slotSub (Except.ok (some r)) "wallet_address"
          = pySubS r "wallet_address" from rfl, hsub_wa]
      simp only [ok_bind, pure_ok]
      rw [ha]
      rfl
    | some it =>
      simp only []
      have hmem : it ∈ items := List.mem_of_find?_eq_some hfi
      have htruthy : jTruthy (jGetD it "trc20") = true := by
        have := List.find?_some hfi
        simpa using this
      have hhit := hitems it hmem
      rw [tronItemOk, Bool.and_eq_true, Bool.and_eq_true] at hhit
      have hts : ∃ ts, jGetD it "trc20" = .arr ts
          ∧ ∀ t ∈ ts, tronEntryOk c t = true := by
        cases hv : jGetD it "trc20" with
        | arr ts =>
          have := hhit.2.2
          rw [hv] at this
          exact ⟨ts, rfl, by simpa [List.all_eq_true] using this⟩
        | null => rw [hv] at htruthy; simp [jTruthy] at htruthy
        | bool b =>
          have := hhit.2.2
          rw [hv] at this
          rw [hv] at htruthy
          simp [jTruthy] at htruthy this
          rw [htruthy] at this
          simp at this
        | int n =>
          have := hhit.2.2
          rw [hv] at this
          rw [hv] at htruthy
          simp [jTruthy] at htruthy this
          exact absurd this htruthy
        | str s =>
          have := hhit.2.2
          rw [hv] at this
          rw [hv] at htruthy
          simp [jTruthy] at htruthy this
          exact absurd this htruthy
        | obj kvs =>
          have := hhit.2.2
          rw [hv] at this
          rw [hv] at htruthy
          simp [jTruthy] at htruthy this
          exact absurd this htruthy
      obtain ⟨ts, hv, hents⟩ := hts
      have hsub_trc : pySubS it "trc20" = .ok (.arr ts) := by
        rw [← hv]
        exact pySubS_of_jGetD (by rw [hv]; intro hc; cases hc)
      rw [hsub_trc, ok_bind]
      simp only [pyIterate, ok_bind]
      rw [firstContractVal_wf c ts hents, ok_bind]
      cases hft : ts.find? (fun t => jTruthy (jGetD t c)) with
      | none =>
        rw [hval]
        simp only [hfi, hv, hft, ok_bind,
          show pyIntOf (JVal.int 0) = Except.ok (0 : Int) from rfl,
          show slotSub (Except.ok (some r)) "wallet_address"
            = pySubS r "wallet_address" from rfl, hsub_wa, ha]
        rfl
      | some t =>
        have htmem : t ∈ ts := List.mem_of_find?_eq_some hft
        have htc : jTruthy (jGetD t c) = true := by
          have := List.find?_some hft
          simpa using this
        have hent := hents t htmem
        rw [tronEntryOk, Bool.and_eq_true] at hent
        have hok : exIsOk (pyIntOf (jGetD t c)) = true := by
          have h2b := hent.2
          rw [htc] at h2b
          simpa using h2b
        obtain ⟨v, hvv⟩ := exIsOk_spec hok
        rw [hval]
        simp only [hfi, hv, hft, hvv, ok_bind,
          show slotSub (Except.ok (some r)) "wallet_address"
            = pySubS r "wallet_address" from rfl, hsub_wa, ha,
          show exGetD (Except.ok v : Except PyErr Int) 0 = v from rfl]
        rfl

/-- One well-formed BscScan balance response updates the wallet dict at
its correlation key with exactly `bscValOf`. -/
theorem bscBalStep_wf (d : List (JVal × Int)) (r : JVal)
    (hwf : bscRespOk r = true) :
    bscBalStep d (.ok (some r))
      = .ok (dictSet d (jGetD r "wallet_address") (bscValOf r)) := by
  rw [bscRespOk, Bool.and_eq_true, Bool.and_eq_true] at hwf
  obtain ⟨h1, h2, h3⟩ := hwf
  obtain ⟨m, hm⟩ := isStrB_spec h1
  obtain ⟨a, ha⟩ := isStrB_spec h2
  obtain ⟨kvs, hkvs⟩ : ∃ kvs, r = .obj kvs := by
    cases r
    case obj kvs => exact ⟨kvs, rfl⟩
    all_goals simp [jGetD] at ha
  have hsub_msg : pySubS r "message" = .ok (.str m) := by
    rw [← hm]
    exact pySubS_of_jGetD (by rw [hm]; intro hc; cases hc)
  have hsub_wa : pySubS r "wallet_address" = .ok (.str a) := by
    rw [← ha]
    exact pySubS_of_jGetD (by rw [ha]; intro hc; cases hc)
  rw [hm, show pyStr (JVal.str m) = m from rfl] at h3
  have hbv : bscValOf r
      = if strUpper m == "OK" then exGetD (pyIntOf (jGetD r "result")) 0
        else -1 := by
    rw [bscValOf, hm]
    rfl
  rw [bscBalStep]
  rw [show slotSub (Except.ok (some r)) "message" = pySubS r "message" from rfl,
    hsub_msg, ok_bind]
  simp only [pyUpper, ok_bind]
  cases hok : (strUpper m == "OK") with
  | true =>
    rw [hok, if_pos rfl] at h3
    obtain ⟨v, hv⟩ := exIsOk_spec h3
    have hsub_res : pySubS r "result" = .ok (jGetD r "result") :=
      pySubS_of_jGetD (by intro hc; rw [hc] at hv; simp [pyIntOf] at hv)
    simp only [hok, if_true,
      show slotSub (Except.ok (some r)) "result" = pySubS r "result" from rfl,
      hsub_res, ok_bind, hv,
      show slotSub (Except.ok (some r)) "wallet_address"
        = pySubS r "wallet_address" from rfl, hsub_wa, ha, hbv,
      show exGetD (Except.ok v : Except PyErr Int) 0 = v from rfl]
    rfl
  | false =>
    have hget_msg : slotGet (Except.ok (some r)) "message" (.str "Unknown error")
        = .ok ((objLookup kvs "message").getD (.str "Unknown error")) := by
      rw [hkvs]; rfl
    simp only [hok, Bool.false_eq_true, if_false, hget_msg, ok_bind,
      show slotSub (Except.ok (some r)) "wallet_address"
        = pySubS r "wallet_address" from rfl, hsub_wa, ha, hbv]
    rfl

/-- The gathered slots of well-formed Tron responses fold to a pure
sequence of dict writes. -/
theorem tronBalFoldM (c : String) (rs : List JVal) (d : List (JVal × Int))
    (h : ∀ r ∈ rs, tronRespOk c r = true) :
    (rs.map (fun r => (Except.ok (some r) : Slot))).foldlM (tronBalStep c) d
      = .ok (rs.foldl (fun d2 r =>
          dictSet d2 (jGetD r "wallet_address") (tronValOf c r)) d) := by
  induction rs generalizing d with
  | nil => simp [List.foldlM, pure_ok]
  | cons r rest ih =>
    rw [List.map_cons, List.foldlM_cons,
      tronBalStep_wf c d r (h r (List.mem_cons_self r rest)), ok_bind,
      ih _ (fun x hx => h x (List.mem_cons_of_mem r hx)), List.foldl_cons]

/-- BscScan counterpart of `tronBalFoldM`. -/
theorem bscBalFoldM (rs : List JVal) (d : List (JVal × Int))
    (h : ∀ r ∈ rs, bscRespOk r = true) :
    (rs.map (fun r => (Except.ok (some r) : Slot))).foldlM bscBalStep d
      = .ok (rs.foldl (fun d2 r =>
          dictSet d2 (jGetD r "wallet_address") (bscValOf r)) d) := by
  induction rs generalizing d with
  | nil => simp [List.foldlM, pure_ok]
  | cons r rest ih =>
    rw [List.map_cons, List.foldlM_cons,
      bscBalStep_wf d r (h r (List.mem_cons_self r rest)), ok_bind,
      ih _ (fun x hx => h x (List.mem_cons_of_mem r hx)), List.foldl_cons]

theorem dictSet_fresh {α : Type} (d : List (JVal × α)) (k : JVal) (v : α)
    (h : dictFind? d k = none) : dictSet d k v = d ++ [(k, v)] := by
  induction d with
  | nil => simp [dictSet]
  | cons p rest ih =>
    obtain ⟨k1, v1⟩ := p
    rw [dictFind?] at h
    cases hp : jBeq k1 k with
    | true => rw [hp] at h; simp at h
    | false =>
      rw [hp] at h
      simp only [Bool.false_eq_true, if_false] at h
      simp [dictSet, hp, ih h]

theorem dictInit_aux {α : Type} (v : α) :
    ∀ (as : List String) (pre : List (JVal × α)),
      as.Nodup → (∀ a ∈ as, dictFind? pre (.str a) = none) →
      (as.map JVal.str).foldlM (fun d w => pyDictSet d w v) pre
        = .ok (pre ++ as.map (fun a => (JVal.str a, v))) := by
  intro as
  induction as with
  | nil => intro pre _ _; simp [List.foldlM, pure_ok]
  | cons a as1 ih =>
    intro pre hnd hfresh
    rw [List.map_cons, List.foldlM_cons]
    rw [show pyDictSet pre (JVal.str a) v = .ok (dictSet pre (.str a) v)
      from rfl, ok_bind]
    rw [dictSet_fresh pre (.str a) v (hfresh a (List.mem_cons_self a as1))]
    have hfresh2 : ∀ b ∈ as1,
        dictFind? (pre ++ [(JVal.str a, v)]) (.str b) = none := by
      intro b hb
      rw [dictFind?_append]
      rw [hfresh b (List.mem_cons_of_mem a hb)]
      have hne : a ≠ b := fun he =>
        (List.nodup_cons.mp hnd).1 (he ▸ hb)
      simp [dictFind?, jBeq_str_of_ne hne]
    rw [ih (pre ++ [(JVal.str a, v)]) (List.nodup_cons.mp hnd).2 hfresh2]
    simp

/-- The initial `{address: 0 for address in wallets}` dict for distinct
wallets. -/
theorem dictInit_nodup {α : Type} (v : α) (as : List String)
    (hnd : as.Nodup) :
    dictInit v (as.map JVal.str)
      = .ok (as.map (fun a => (JVal.str a, v))) := by
  have := dictInit_aux v as [] hnd (fun a _ => by simp [dictFind?])
  simpa [dictInit] using this

/-- Folding one dict write per response over the initialized dict yields
the zip of wallets with their computed values (wallets distinct, writes
aligned with the wallet list). -/
theorem balFold_aux (valf : JVal → Int) :
    ∀ (as : List String) (rs : List JVal) (pre : List (JVal × Int)),
      rs.length = as.length → as.Nodup →
      (∀ i, i < rs.length →
        jGetD (rs.getD i .null) "wallet_address" = .str (as.getD i "")) →
      (∀ a ∈ as, dictFind? pre (.str a) = none) →
      rs.foldl (fun d2 r => dictSet d2 (jGetD r "wallet_address") (valf r))
          (pre ++ as.map (fun a => (JVal.str a, (0 : Int))))
        = pre ++ List.zipWith (fun a r => (JVal.str a, valf r)) as rs := by
  intro as
  induction as with
  | nil =>
    intro rs pre hlen _ _ _
    rw [List.length_nil] at hlen
    rw [List.eq_nil_of_length_eq_zero hlen]
    simp
  | cons a as1 ih =>
    intro rs pre hlen hnd haddr hfresh
    cases rs with
    | nil => simp at hlen
    | cons r rs1 =>
      rw [List.foldl_cons]
      have h0 := haddr 0 (by simp)
      rw [List.getD_cons_zero, List.getD_cons_zero] at h0
      rw [h0]
      rw [List.map_cons]
      rw [dictSet_skip pre _ (.str a) (valf r)
        (hfresh a (List.mem_cons_self a as1))]
      rw [show dictSet ((JVal.str a, (0 : Int)) :: as1.map
            (fun a => (JVal.str a, (0 : Int)))) (.str a) (valf r)
          = (JVal.str a, valf r) :: as1.map
            (fun a => (JVal.str a, (0 : Int))) from by
        simp [dictSet, jBeq_str_self]]
      have hstep : pre ++ (JVal.str a, valf r) :: as1.map
            (fun a => (JVal.str a, (0 : Int)))
          = (pre ++ [(JVal.str a, valf r)]) ++ as1.map
            (fun a => (JVal.str a, (0 : Int))) := by simp
      rw [hstep]
      rw [ih rs1 (pre ++ [(JVal.str a, valf r)])
        (by simpa using hlen) (List.nodup_cons.mp hnd).2
        (fun i hi => by
          have := haddr (i + 1) (by simpa using Nat.succ_lt_succ hi)
          rwa [List.getD_cons_succ, List.getD_cons_succ] at this)
        (fun b hb => by
          rw [dictFind?_append, hfresh b (List.mem_cons_of_mem a hb)]
          have hne : a ≠ b := fun he => (List.nodup_cons.mp hnd).1 (he ▸ hb)
          simp [dictFind?, jBeq_str_of_ne hne])]
      simp [List.zipWith]

theorem zipWith_keys (as : List String) (rs : List JVal)
    (valf : JVal → Int) (hlen : rs.length = as.length) :
    (List.zipWith (fun a r => (JVal.str a, valf r)) as rs).map Prod.fst
      = as.map JVal.str := by
  induction as generalizing rs with
  | nil => simp
  | cons a as1 ih =>
    cases rs with
    | nil => simp at hlen
    | cons r rs1 =>
      rw [List.zipWith_cons_cons, List.map_cons, List.map_cons,
        ih rs1 (by simpa using hlen)]

theorem dictFind?_zipWith (as : List String) (rs : List JVal)
    (valf : JVal → Int) (hlen : rs.length = as.length) (hnd : as.Nodup) :
    ∀ i, i < rs.length →
      dictFind? (List.zipWith (fun a r => (JVal.str a, valf r)) as rs)
          (.str (as.getD i ""))
        = some (valf (rs.getD i .null)) := by
  induction as generalizing rs with
  | nil =>
    intro i hi
    rw [List.length_nil] at hlen
    rw [List.eq_nil_of_length_eq_zero hlen] at hi
    simp at hi
  | cons a as1 ih =>
    cases rs with
    | nil => simp at hlen
    | cons r rs1 =>
      intro i hi
      cases i with
      | zero =>
        rw [List.getD_cons_zero, List.getD_cons_zero,
          List.zipWith_cons_cons, dictFind?, jBeq_str_self]
        rfl
      | succ n =>
        have hn : n < rs1.length := by simpa using Nat.lt_of_succ_lt_succ hi
        have hn2 : n < as1.length := by
          rw [List.length_cons] at hlen
          have := hlen
          simp at this
          omega
        have hmem : as1.getD n "" ∈ as1 := by
          rw [List.getD_eq_getElem as1 "" hn2]
          exact List.getElem_mem hn2
        have hne : a ≠ as1.getD n "" := fun he =>
          (List.nodup_cons.mp hnd).1 (he ▸ hmem)
        rw [List.getD_cons_succ, List.getD_cons_succ,
          List.zipWith_cons_cons, dictFind?, jBeq_str_of_ne hne]
        simp only [Bool.false_eq_true, if_false]
        exact ih rs1 (by simpa using hlen) (List.nodup_cons.mp hnd).2 n hn

theorem tronValOf_fail (c : String) (r : JVal)
    (h : jTruthy (jGetD r "success") = false) : tronValOf c r = -1 := by
  simp [tronValOf, h]

theorem tronValOf_noContract (c : String) (r : JVal)
    (h1 : jTruthy (jGetD r "success") = true)
    (h2 : tronNoContract c r = true) : tronValOf c r = 0 := by
  rw [tronValOf, h1]
  simp only [Bool.not_true, Bool.false_eq_true, if_false]
  cases hfi : tronFoundItem
      (match jGetD r "data" with | .arr xs => xs | _ => []) with
  | none => rfl
  | some it =>
    simp only []
    rw [tronNoContract] at h2
    have hmem : it ∈ (match jGetD r "data" with | .arr xs => xs | _ => []) :=
      List.mem_of_find?_eq_some hfi
    cases hd : jGetD r "data" with
    | arr items =>
      rw [hd] at h2 hmem
      simp only [] at h2 hmem
      rw [List.all_eq_true] at h2
      have hitem := h2 it hmem
      cases hv : jGetD it "trc20" with
      | arr ts =>
        rw [hv] at hitem
        simp only [] at hitem ⊢
        rw [List.all_eq_true] at hitem
        have hnone : ts.find? (fun t => jTruthy (jGetD t c)) = none := by
          rw [List.find?_eq_none]
          intro t ht
          have := hitem t ht
          simp at this
          simp [this]
        rw [hnone]
      | null => simp [List.find?]
      | bool b => simp [List.find?]
      | int n => simp [List.find?]
      | str s => simp [List.find?]
      | obj kvs => simp [List.find?]
    | null => rw [hd] at hmem; simp at hmem
    | bool b => rw [hd] at hmem; simp at hmem
    | int n => rw [hd] at hmem; simp at hmem
    | str s => rw [hd] at hmem; simp at hmem
    | obj kvs => rw [hd] at hmem; simp at hmem

theorem bscValOf_fail (r : JVal)
    (h : (strUpper (pyStr (jGetD r "message")) == "OK") = false) :
    bscValOf r = -1 := by
  simp [bscValOf, h]

/-! ### C4 -/

/-- C4: for a `get_balances` call over distinct wallets with one
well-formed response per wallet, in task order as `gather` returns them:
the key list of the returned mapping is exactly the requested wallets (no
wallet missing); each wallet's entry is the value computed from its own
response; a response reporting provider-level failure yields the sentinel
`-1`; and a successful Tron response whose payload has no entry for the
tracked contract yields `0`.  Stated for both wallet readers. -/
theorem c4_balance_mapping (c : String) (as bs : List String)
    (rs qs : List JVal)
    (hlen : rs.length = as.length) (hnd : as.Nodup)
    (hwf : ∀ r ∈ rs, tronRespOk c r = true)
    (haddr : ∀ i, i < rs.length →
      jGetD (rs.getD i .null) "wallet_address" = .str (as.getD i ""))
    (hqlen : qs.length = bs.length) (hqnd : bs.Nodup)
    (hqwf : ∀ r ∈ qs, bscRespOk r = true)
    (hqaddr : ∀ i, i < qs.length →
      jGetD (qs.getD i .null) "wallet_address" = .str (bs.getD i ""))
    (i j : Nat) (hi : i < rs.length) (hj : j < qs.length) :
    tronGetBalances c (as.map .str) (rs.map (fun r => .ok (some r)))
      = .ok (List.zipWith (fun a r => (JVal.str a, tronValOf c r)) as rs) ∧
    (List.zipWith (fun a r => (JVal.str a, tronValOf c r)) as rs).map Prod.fst
      = as.map JVal.str ∧
    dictFind? (List.zipWith (fun a r => (JVal.str a, tronValOf c r)) as rs)
        (.str (as.getD i ""))
      = some (tronValOf c (rs.getD i .null)) ∧
    (jTruthy (jGetD (rs.getD i .null) "success") = false →
      tronValOf c (rs.getD i .null) = -1) ∧
    (jTruthy (jGetD (rs.getD i .null) "success") = true →
      tronNoContract c (rs.getD i .null) = true →
      tronValOf c (rs.getD i .null) = 0) ∧
    bscGetBalances (bs.map .str) (qs.map (fun r => .ok (some r)))
      = .ok (List.zipWith (fun b r => (JVal.str b, bscValOf r)) bs qs) ∧
    (List.zipWith (fun b r => (JVal.str b, bscValOf r)) bs qs).map Prod.fst
      = bs.map JVal.str ∧
    dictFind? (List.zipWith (fun b r => (JVal.str b, bscValOf r)) bs qs)
        (.str (bs.getD j ""))
      = some (bscValOf (qs.getD j .null)) ∧
    ((strUpper (pyStr (jGetD (qs.getD j .null) "message")) == "OK") = false →
      bscValOf (qs.getD j .null) = -1) := by
  have htron : tronGetBalances c (as.map .str)
      (rs.map (fun r => .ok (some r)))
      = .ok (List.zipWith (fun a r => (JVal.str a, tronValOf c r)) as rs) := by
    simp only [tronGetBalances]
    rw [dictInit_nodup (0 : Int) as hnd, ok_bind, tronBalFoldM c rs _ hwf]
    have haux := balFold_aux (tronValOf c) as rs [] hlen hnd haddr
      (fun a _ => by simp [dictFind?])
    simp only [List.nil_append] at haux
    rw [haux]
  have hbsc : bscGetBalances (bs.map .str)
      (qs.map (fun r => .ok (some r)))
      = .ok (List.zipWith (fun b r => (JVal.str b, bscValOf r)) bs qs) := by
    simp only [bscGetBalances]
    rw [dictInit_nodup (0 : Int) bs hqnd, ok_bind, bscBalFoldM qs _ hqwf]
    have haux := balFold_aux bscValOf bs qs [] hqlen hqnd hqaddr
      (fun a _ => by simp [dictFind?])
    simp only [List.nil_append] at haux
    rw [haux]
  exact ⟨htron,
    zipWith_keys as rs (tronValOf c) hlen,
    dictFind?_zipWith as rs (tronValOf c) hlen hnd i hi,
    fun h => tronValOf_fail c _ h,
    fun h1 h2 => tronValOf_noContract c _ h1 h2,
    hbsc,
    zipWith_keys bs qs bscValOf hqlen,
    dictFind?_zipWith bs qs bscValOf hqlen hqnd j hj,
    fun h => bscValOf_fail _ h⟩

/-- Witness for C4 at a concrete two-wallet Tron batch (one success with
no tracked-contract entry, one provider failure) and a one-wallet BscScan
batch (provider failure). -/
theorem c4_witness :
    ([tronRespNoEntry, tronRespFail].length = (["WA", "WB"] : List String).length) ∧
    (["WA", "WB"] : List String).Nodup ∧
    ([bscRespFail].length = (["WC"] : List String).length) ∧
    (["WC"] : List String).Nodup ∧ 1 < 2 ∧ 0 < 1 ∧
    (tronGetBalances TRON_USDT_CONTRACT ((["WA", "WB"] : List String).map .str)
        ([tronRespNoEntry, tronRespFail].map (fun r => .ok (some r)))
      = .ok (List.zipWith (fun a r => (JVal.str a, tronValOf TRON_USDT_CONTRACT r))
          ["WA", "WB"] [tronRespNoEntry, tronRespFail]) ∧
    (List.zipWith (fun a r => (JVal.str a, tronValOf TRON_USDT_CONTRACT r))
        ["WA", "WB"] [tronRespNoEntry, tronRespFail]).map Prod.fst
      = (["WA", "WB"] : List String).map JVal.str ∧
    dictFind? (List.zipWith (fun a r => (JVal.str a, tronValOf TRON_USDT_CONTRACT r))
        ["WA", "WB"] [tronRespNoEntry, tronRespFail])
        (.str ((["WA", "WB"] : List String).getD 1 ""))
      = some (tronValOf TRON_USDT_CONTRACT
          ([tronRespNoEntry, tronRespFail].getD 1 .null)) ∧
    (jTruthy (jGetD ([tronRespNoEntry, tronRespFail].getD 1 .null) "success") = false →
      tronValOf TRON_USDT_CONTRACT ([tronRespNoEntry, tronRespFail].getD 1 .null) = -1) ∧
    (jTruthy (jGetD ([tronRespNoEntry, tronRespFail].getD 1 .null) "success") = true →
      tronNoContract TRON_USDT_CONTRACT ([tronRespNoEntry, tronRespFail].getD 1 .null) = true →
      tronValOf TRON_USDT_CONTRACT ([tronRespNoEntry, tronRespFail].getD 1 .null) = 0) ∧
    bscGetBalances ((["WC"] : List String).map .str)
        ([bscRespFail].map (fun r => .ok (some r)))
      = .ok (List.zipWith (fun b r => (JVal.str b, bscValOf r)) ["WC"] [bscRespFail]) ∧
    (List.zipWith (fun b r => (JVal.str b, bscValOf r)) ["WC"] [bscRespFail]).map Prod.fst
      = (["WC"] : List String).map JVal.str ∧
    dictFind? (List.zipWith (fun b r => (JVal.str b, bscValOf r)) ["WC"] [bscRespFail])
        (.str ((["WC"] : List String).getD 0 ""))
      = some (bscValOf ([bscRespFail].getD 0 .null)) ∧
    ((strUpper (pyStr (jGetD ([bscRespFail].getD 0 .null) "message")) == "OK") = false →
      bscValOf ([bscRespFail].getD 0 .null) = -1)) :=
  ⟨rfl, by decide, rfl, by decide, by decide, by decide,
   c4_balance_mapping TRON_USDT_CONTRACT ["WA", "WB"] ["WC"]
     [tronRespNoEntry, tronRespFail] [bscRespFail]
     rfl (by decide)
     (fun r hr => by
       rcases List.mem_cons.mp hr with h | hr2
       · subst h; decide
       · rw [List.mem_singleton] at hr2; subst hr2; decide)
     (fun i hi => by
       rcases i with _ | _ | i
       · rfl
       · rfl
       · simp only [List.length_cons, List.length_nil] at hi
         omega)
     rfl (by decide)
     (fun r hr => by rw [List.mem_singleton] at hr; subst hr; decide)
     (fun i hi => by
       rcases i with _ | i
       · rfl
       · simp only [List.length_cons, List.length_nil] at hi
         omega)
     1 0 (by decide) (by decide)⟩

/-! ### MOEX processing lemmas (C8) -/

theorem isArrB_spec {v : JVal} (h : isArrB v = true) : ∃ xs, v = .arr xs := by
  cases v <;> simp [isArrB] at h ⊢

theorem pyIdx_wf {row : JVal} {i : Nat} (harr : isArrB row = true)
    (h : i < arrLen row) : pyIdx row i = .ok (jIdxD row i) := by
  obtain ⟨xs, hxs⟩ := isArrB_spec harr
  subst hxs
  rw [arrLen] at h
  cases hx : xs.get? i with
  | none => rw [List.get?_eq_none] at hx; omega
  | some x =>
    have hx2 : xs[i]? = some x := by rw [← List.get?_eq_getElem?]; exact hx
    simp [pyIdx, jIdxD, hx, hx2]

/-- `moexBuildMeta` over well-formed securities rows is the pure
metadata fold, from any starting dict. -/
theorem moexBuildMeta_aux :
    ∀ (rows : List JVal) (d : List (JVal × MOEXMetadata)),
      (∀ row ∈ rows, moexSecRowOk row = true) →
      rows.foldlM
        (fun d row =>
          if (true : Bool) then do
            let k ← pyIdx row 0
            let sn ← pyIdx row 1
            let fn ← pyIdx row 2
            pyDictSet d k ⟨sn, fn⟩
          else pure d) d
        = .ok (rows.foldl
            (fun d row =>
              dictSet d (jIdxD row 0) ⟨jIdxD row 1, jIdxD row 2⟩) d) := by
  intro rows
  induction rows with
  | nil => intro d _; simp [List.foldlM, pure_ok]
  | cons row rest ih =>
    intro d h
    have hrow := h row (List.mem_cons_self row rest)
    rw [moexSecRowOk, Bool.and_eq_true, Bool.and_eq_true] at hrow
    obtain ⟨h1, h2, h3⟩ := hrow
    have hlen : 3 ≤ arrLen row := by simpa using h2
    rw [List.foldlM_cons, if_pos rfl,
      pyIdx_wf h1 (by omega), ok_bind,
      pyIdx_wf h1 (by omega), ok_bind,
      pyIdx_wf h1 (by omega), ok_bind]
    rw [show pyDictSet d (jIdxD row 0)
        (⟨jIdxD row 1, jIdxD row 2⟩ : MOEXMetadata)
        = .ok (dictSet d (jIdxD row 0) ⟨jIdxD row 1, jIdxD row 2⟩)
        from by rw [pyDictSet, if_pos h3]]
    rw [ok_bind, ih _ (fun x hx => h x (List.mem_cons_of_mem row hx)),
      List.foldl_cons]

/-- `moexBuildMeta` with a truthy payload computes `moexMetaOf`. -/
theorem moexBuildMeta_wf (rows : List JVal)
    (h : ∀ row ∈ rows, moexSecRowOk row = true) :
    moexBuildMeta true rows = .ok (moexMetaOf rows) :=
  moexBuildMeta_aux rows [] h

/-- Unpacking `moexTsOkB`: the cell is a string whose `fromisoformat`
parse succeeds. -/
theorem moexTsOkB_spec {v : JVal} (h : moexTsOkB v = true) :
    ∃ s t, v = .str s ∧ pyFromIso s = .ok t := by
  cases v with
  | str s =>
    have h2 : exIsOk (pyFromIso s) = true := h
    obtain ⟨t, ht⟩ := exIsOk_spec h2
    exact ⟨s, t, rfl, ht⟩
  | null => exact absurd h (by simp [moexTsOkB])
  | bool b => exact absurd h (by simp [moexTsOkB])
  | int n => exact absurd h (by simp [moexTsOkB])
  | arr xs => exact absurd h (by simp [moexTsOkB])
  | obj kvs => exact absurd h (by simp [moexTsOkB])

/-- One marketdata row of the result comprehension over a well-formed
row: kept rows update the dict at their id with the joined entry, all
other rows are skipped. -/
theorem moexMdStep_wf (symbols : String) (meta : List (JVal × MOEXMetadata))
    (d : List (JVal × CurrencyRate)) (row : JVal)
    (hwf : moexMdRowOk symbols meta row = true) :
    moexMdStep symbols true meta d row
      = .ok (if moexKeep symbols row
          then dictSet d (jIdxD row 2) (moexCROf meta row) else d) := by
  rw [moexMdRowOk, Bool.and_eq_true, Bool.and_eq_true] at hwf
  obtain ⟨h1, h2, h3⟩ := hwf
  have hlen : 4 ≤ arrLen row := by simpa using h2
  have hidx0 := pyIdx_wf h1 (show 0 < arrLen row by omega)
  have hidx2 := pyIdx_wf h1 (show 2 < arrLen row by omega)
  have hidx3 := pyIdx_wf h1 (show 3 < arrLen row by omega)
  rw [moexMdStep]
  simp only [Bool.not_true, Bool.false_eq_true, if_false, hidx0, ok_bind]
  cases hp : jTruthy (jIdxD row 0) with
  | false =>
    have hkeep : moexKeep symbols row = false := by
      rw [moexKeep, hp]
      rfl
    simp [hkeep, pure_ok]
  | true =>
    rw [hp] at h3
    simp only [if_true] at h3
    rw [Bool.and_eq_true] at h3
    obtain ⟨hstr, hrest⟩ := h3
    obtain ⟨sid, hsid⟩ := isStrB_spec hstr
    simp only [Bool.not_true, Bool.false_eq_true, if_false, hidx2, ok_bind,
      hsid, pure_ok]
    cases hin : strContains symbols sid with
    | false =>
      have hkeep : moexKeep symbols row = false := by
        rw [moexKeep, hsid]
        simp [hin]
      simp [hkeep, pure_ok]
    | true =>
      have hkeep : moexKeep symbols row = true := by
        rw [moexKeep, hsid]
        simp [hp, hin]
      rw [hkeep] at hrest
      simp only [if_true] at hrest
      rw [Bool.and_eq_true] at hrest
      obtain ⟨hfound, hrest2⟩ := hrest
      rw [Bool.and_eq_true] at hrest2
      obtain ⟨hdec, hts⟩ := hrest2
      obtain ⟨m, hml⟩ := Option.isSome_iff_exists.mp hfound
      obtain ⟨rv, hrv⟩ := exIsOk_spec hdec
      obtain ⟨tss, tv, htss, htv⟩ := moexTsOkB_spec hts
      have hhash : jHashable (jIdxD row 2) = true := by rw [hsid]; rfl
      have hfind : pyDictFind meta (jIdxD row 2) = .ok m := by
        rw [pyDictFind, hhash]
        simp only [Bool.not_true, Bool.false_eq_true, if_false, hml]
      have hcro : moexCROf meta row = ⟨m.shortname, m.secname, rv, .dt tv⟩ := by
        rw [moexCROf, hml]
        simp [hrv, exGetD, moexTsOf, htss, htv]
      have hfind2 : pyDictFind meta (.str sid) = .ok m := hsid ▸ hfind
      simp only [Bool.not_true, Bool.false_eq_true, if_false, ok_bind,
        hidx2, hfind2, hidx0, hrv, hidx3, htss, htv, pure_ok]
      rw [show pyDictSet d (JVal.str sid)
          (⟨m.shortname, m.secname, rv, .dt tv⟩ : CurrencyRate)
          = .ok (dictSet d (.str sid) ⟨m.shortname, m.secname, rv, .dt tv⟩)
          from rfl]
      rw [hkeep, if_pos rfl, hcro]

/-- The marketdata fold over well-formed rows with pairwise-distinct kept
ids appends exactly the kept entries. -/
theorem moexFold_aux (symbols : String) (meta : List (JVal × MOEXMetadata)) :
    ∀ (rows : List JVal) (pre : List (JVal × CurrencyRate)),
      (∀ row ∈ rows, moexMdRowOk symbols meta row = true) →
      (∀ row ∈ rows, moexKeep symbols row = true →
        dictFind? pre (jIdxD row 2) = none) →
      keysFresh (rows.filterMap
        (fun row => if moexKeep symbols row then some (jIdxD row 2) else none))
        = true →
      rows.foldlM (moexMdStep symbols true meta) pre
        = .ok (pre ++ rows.filterMap
            (fun row => if moexKeep symbols row
              then some (jIdxD row 2, moexCROf meta row) else none)) := by
  intro rows
  induction rows with
  | nil => intro pre _ _ _; simp [List.foldlM, pure_ok]
  | cons row rest ih =>
    intro pre hwf hfresh hkf
    rw [List.foldlM_cons,
      moexMdStep_wf symbols meta pre row (hwf row (List.mem_cons_self row rest))]
    cases hk : moexKeep symbols row with
    | false =>
      have hkf2 : keysFresh (rest.filterMap
          (fun row => if moexKeep symbols row then some (jIdxD row 2) else none))
          = true := by
        simpa [List.filterMap_cons, hk] using hkf
      rw [show (if false = true
          then dictSet pre (jIdxD row 2) (moexCROf meta row) else pre)
          = pre from rfl, ok_bind]
      rw [ih pre (fun x hx => hwf x (List.mem_cons_of_mem row hx))
        (fun x hx hkx => hfresh x (List.mem_cons_of_mem row hx) hkx) hkf2]
      simp [hk]
    | true =>
      have hkf' := hkf
      rw [List.filterMap_cons] at hkf'
      simp only [hk, if_true] at hkf'
      rw [keysFresh, Bool.and_eq_true] at hkf'
      obtain ⟨hhead, htail⟩ := hkf'
      have hpre0 : dictFind? pre (jIdxD row 2) = none :=
        hfresh row (List.mem_cons_self row rest) hk
      have hfresh2 : ∀ x ∈ rest, moexKeep symbols x = true →
          dictFind? (pre ++ [(jIdxD row 2, moexCROf meta row)])
            (jIdxD x 2) = none := by
        intro x hx hkx
        rw [dictFind?_append, hfresh x (List.mem_cons_of_mem row hx) hkx]
        have hxmem : jIdxD x 2 ∈ rest.filterMap
            (fun row => if moexKeep symbols row
              then some (jIdxD row 2) else none) := by
          rw [List.mem_filterMap]
          exact ⟨x, hx, by simp [hkx]⟩
        have hne := (List.all_eq_true.mp hhead) (jIdxD x 2) hxmem
        simp only [Bool.not_eq_true'] at hne
        simp [dictFind?, hne]
      rw [show (if true = true
          then dictSet pre (jIdxD row 2) (moexCROf meta row) else pre)
          = dictSet pre (jIdxD row 2) (moexCROf meta row) from rfl, ok_bind]
      rw [dictSet_fresh pre _ _ hpre0]
      rw [ih (pre ++ [(jIdxD row 2, moexCROf meta row)])
        (fun x hx => hwf x (List.mem_cons_of_mem row hx)) hfresh2 htail]
      simp [hk]

/-! ### C8 -/

/-- C8 counterexample: a MOEX reader configured with the single symbol
`CNYRUB_TOM` keeps a marketdata row whose id `RUB_TOM` is NOT a member of
the configured target subset — `data[2] in self.symbols` is a substring
test on the joined symbols string, not set membership.  (A malformed
timestamp cell instead makes the whole call raise the `fromisoformat`
`ValueError`, last conjunct.) -/
theorem c8_counterexample :
    moexGetRates "CNYRUB_TOM"
      (.ok (some (moexPayload
        [.arr [.str "RUB_TOM", .str "R", .str "Rname"]]
        [.arr [.str "81.5", .str "10:00", .str "RUB_TOM",
           .str "2024-01-02T10:00:00"]])))
      = .ok [(.str "RUB_TOM",
          ⟨.str "R", .str "Rname", exGetD (pyDecimal "81.5") 0,
           .dt ⟨2024, 1, 2, 10, 0, 0, 0, none⟩⟩)] ∧
    (("RUB_TOM" : String) ≠ "CNYRUB_TOM") ∧
    strContains "CNYRUB_TOM" "RUB_TOM" = true ∧
    moexGetRates "CNYRUB_TOM"
      (.ok (some (moexPayload
        [.arr [.str "RUB_TOM", .str "R", .str "Rname"]]
        [.arr [.str "81.5", .str "10:00", .str "RUB_TOM", .str "T"]])))
      = .error (.valueError "Invalid isoformat string") :=
  ⟨rfl, by decide, by decide, rfl⟩

/-- C8 amended: `MOEXReader.get_rates` keeps exactly the market-data rows
whose price cell is truthy and whose id is a substring of the comma-joined
configured symbols string, skipping all other rows silently; kept rows are
keyed by security id with the securities metadata joined by id and the
timestamp cell parsed by `fromisoformat` (well-formedness, `moexMdRowOk`,
includes that this parse succeeds — a malformed cell raises instead).  In
the end-to-end scenario (3 securities, matching rows for only 2 requested
symbols) the result has exactly the 2 entries with their joined
metadata. -/
theorem c8_substring_filter (symbols : String) (secRows mdRows : List JVal)
    (hsec : ∀ row ∈ secRows, moexSecRowOk row = true)
    (hmd : ∀ row ∈ mdRows, moexMdRowOk symbols (moexMetaOf secRows) row = true)
    (hkf : keysFresh (mdRows.filterMap
        (fun row => if moexKeep symbols row then some (jIdxD row 2) else none))
        = true) :
    moexGetRates symbols (.ok (some (moexPayload secRows mdRows)))
      = .ok (mdRows.filterMap
          (fun row => if moexKeep symbols row
            then some (jIdxD row 2, moexCROf (moexMetaOf secRows) row)
            else none)) ∧
    moexGetRates "USD000UTSTOM,CNYRUB_TOM,EUR_RUB__TOM"
        (.ok (some (moexPayload secRows3 mdRows3)))
      = .ok [(.str "USD000UTSTOM",
          ⟨.str "USD", .str "Dollar TOM", exGetD (pyDecimal "81.5") 0,
           .dt ⟨2024, 1, 1, 10, 0, 0, 0, none⟩⟩),
         (.str "CNYRUB_TOM",
          ⟨.str "CNY", .str "Yuan TOM", exGetD (pyDecimal "11.2") 0,
           .dt ⟨2024, 1, 1, 10, 0, 0, 0, none⟩⟩)] := by
  constructor
  · simp only [moexGetRates]
    rw [show slotSub (Except.ok (some (moexPayload secRows mdRows))) "securities"
        = .ok (.obj [("data", .arr secRows)]) from rfl, ok_bind]
    rw [show pySubS (JVal.obj [("data", JVal.arr secRows)]) "data"
        = .ok (.arr secRows) from rfl, ok_bind]
    simp only [pyIterate, ok_bind]
    rw [show slotTruthy (Except.ok (some (moexPayload secRows mdRows))) = true
        from rfl]
    rw [moexBuildMeta_wf secRows hsec, ok_bind]
    rw [show slotSub (Except.ok (some (moexPayload secRows mdRows))) "marketdata"
        = .ok (.obj [("data", .arr mdRows)]) from rfl, ok_bind]
    rw [show pySubS (JVal.obj [("data", JVal.arr mdRows)]) "data"
        = .ok (.arr mdRows) from rfl, ok_bind]
    simp only [pyIterate, ok_bind]
    rw [moexFold_aux symbols (moexMetaOf secRows) mdRows [] hmd
      (fun x _ _ => by simp [dictFind?]) hkf]
    simp
  · rfl

/-- Witness for C8 (amended) at the end-to-end scenario inputs. -/
theorem c8_witness :
    keysFresh (mdRows3.filterMap
        (fun row => if moexKeep "USD000UTSTOM,CNYRUB_TOM,EUR_RUB__TOM" row
          then some (jIdxD row 2) else none)) = true ∧
    (moexGetRates "USD000UTSTOM,CNYRUB_TOM,EUR_RUB__TOM"
        (.ok (some (moexPayload secRows3 mdRows3)))
      = .ok (mdRows3.filterMap
          (fun row => if moexKeep "USD000UTSTOM,CNYRUB_TOM,EUR_RUB__TOM" row
            then some (jIdxD row 2, moexCROf (moexMetaOf secRows3) row)
            else none)) ∧
    moexGetRates "USD000UTSTOM,CNYRUB_TOM,EUR_RUB__TOM"
        (.ok (some (moexPayload secRows3 mdRows3)))
      = .ok [(.str "USD000UTSTOM",
          ⟨.str "USD", .str "Dollar TOM", exGetD (pyDecimal "81.5") 0,
           .dt ⟨2024, 1, 1, 10, 0, 0, 0, none⟩⟩),
         (.str "CNYRUB_TOM",
          ⟨.str "CNY", .str "Yuan TOM", exGetD (pyDecimal "11.2") 0,
           .dt ⟨2024, 1, 1, 10, 0, 0, 0, none⟩⟩)]) :=
  ⟨by decide,
   c8_substring_filter "USD000UTSTOM,CNYRUB_TOM,EUR_RUB__TOM" secRows3 mdRows3
     (fun row hrow => by
       rcases List.mem_cons.mp hrow with h | hrow2
       · subst h; decide
       · rcases List.mem_cons.mp hrow2 with h | hrow3
         · subst h; decide
         · rw [List.mem_singleton] at hrow3; subst hrow3; decide)
     (fun row hrow => by
       rcases List.mem_cons.mp hrow with h | hrow2
       · subst h; decide
       · rw [List.mem_singleton] at hrow2; subst hrow2; decide)
     (by decide)⟩

/-! ### C9 -/

/-- A url-dict fold over hashable wallets never raises, from any
starting dict. -/
theorem urlsFold_ok (path : String) :
    ∀ (ws : List JVal) (acc : List (JVal × String)),
      ws.all jHashable = true →
      ∃ d, ws.foldlM
          (fun d w => pyDictSet d w (TRON_API_URL ++ pyStr w ++ path)) acc
        = .ok d := by
  intro ws
  induction ws with
  | nil => intro acc _; exact ⟨acc, by simp [List.foldlM, pure_ok]⟩
  | cons w rest ih =>
    intro acc h
    rw [List.all_cons, Bool.and_eq_true] at h
    obtain ⟨hw, hrest⟩ := h
    rw [List.foldlM_cons]
    rw [show pyDictSet acc w (TRON_API_URL ++ pyStr w ++ path)
        = .ok (dictSet acc w (TRON_API_URL ++ pyStr w ++ path))
        from by rw [pyDictSet, if_pos hw], ok_bind]
    exact ih _ hrest

/-- A url-dict fold over a wallet list holding an unhashable element
raises `TypeError`, from any starting dict. -/
theorem urlsFold_err (path : String) :
    ∀ (ws : List JVal) (acc : List (JVal × String)),
      ws.all jHashable = false →
      ws.foldlM (fun d w => pyDictSet d w (TRON_API_URL ++ pyStr w ++ path)) acc
        = .error (.typeError "unhashable type") := by
  intro ws
  induction ws with
  | nil => intro acc h; simp at h
  | cons w rest ih =>
    intro acc h
    rw [List.foldlM_cons]
    cases hw : jHashable w with
    | false =>
      rw [show pyDictSet acc w (TRON_API_URL ++ pyStr w ++ path)
          = .error (.typeError "unhashable type")
          from by rw [pyDictSet, if_neg (by simp [hw])]]
      rfl
    | true =>
      have hrest : rest.all jHashable = false := by
        rw [List.all_cons, hw, Bool.true_and] at h
        exact h
      rw [show pyDictSet acc w (TRON_API_URL ++ pyStr w ++ path)
          = .ok (dictSet acc w (TRON_API_URL ++ pyStr w ++ path))
          from by rw [pyDictSet, if_pos hw], ok_bind]
      exact ih _ hrest

theorem tronUrlsOf_ok (path : String) (ws : List JVal)
    (h : ws.all jHashable = true) : ∃ d, tronUrlsOf path ws = .ok d :=
  urlsFold_ok path ws [] h

theorem tronUrlsOf_err (path : String) (ws : List JVal)
    (h : ws.all jHashable = false) :
    tronUrlsOf path ws = .error (.typeError "unhashable type") :=
  urlsFold_err path ws [] h

/-- Splitting a wallets string always yields string (hence hashable)
wallets. -/
theorem walletsSet_str_hashable (s : String) :
    ((splitOnChar (fun c => c == ',') (stripWs s).toList).map
      (fun cs => JVal.str (String.mk cs))).all jHashable = true := by
  rw [List.all_eq_true]
  intro w hw
  rw [List.mem_map] at hw
  obtain ⟨cs, _, hcs⟩ := hw
  rw [← hcs]
  rfl

/-- C9 counterexample: `[1, 2]` is a target set that is neither a string
nor a list of strings, yet the full Tron wallets setter (validation plus
both url-dict rebuilds) accepts it without raising —
`isinstance(value, list)` checks only the outer type and ints are
hashable dict keys — refuting the claim that such a target set raises
`ValueError` at configuration time. -/
theorem c9_counterexample :
    tronWalletsSet (.list [.int 1, .int 2])
      = .ok ([.int 1, .int 2],
          [(.int 1, "https://api.trongrid.io/v1/accounts/1"),
           (.int 2, "https://api.trongrid.io/v1/accounts/2")],
          [(.int 1, "https://api.trongrid.io/v1/accounts/1/transactions/trc20"),
           (.int 2, "https://api.trongrid.io/v1/accounts/2/transactions/trc20")]) :=
  rfl

/-- C9 amended: configuration errors fail fast before any I/O — a fetch
with both the call-site and instance-level URL unset (or empty) raises
`ValueError` whatever the network outcome would have been; the Tron
wallets setter raises the validation `ValueError` exactly when its
argument is neither a string nor a list, and it fails at all exactly
when additionally the argument is a list holding an unhashable element
(which raises `TypeError` from the url-dict rebuild, not the validation
`ValueError`; the element types are never otherwise checked). -/
theorem c9_config_fail_fast (instUrl callUrl : Option String)
    (mode : UrlReaderMode) (o : FetchOutcome) (tk tn : Option String)
    (hurl : (strTruthyO callUrl || strTruthyO instUrl) = false)
    (a : PyArg) :
    getRawData instUrl callUrl mode o tk tn
      = .error (.valueError "Url can not be None.") ∧
    ((tronWalletsSet a
        = .error (.valueError "Wallets must be string or list of strings."))
      ↔ a = PyArg.other) ∧
    (exIsOk (tronWalletsSet a) = false
      ↔ (a = PyArg.other ∨
          ∃ l, a = PyArg.list l ∧ l.all jHashable = false)) := by
  have hother : tronWalletsSet PyArg.other
      = .error (.valueError "Wallets must be string or list of strings.") := rfl
  have hstr : ∀ s : String, exIsOk (tronWalletsSet (.str s)) = true := by
    intro s
    obtain ⟨d1, hd1⟩ := tronUrlsOf_ok "" _ (walletsSet_str_hashable s)
    obtain ⟨d2, hd2⟩ :=
      tronUrlsOf_ok "/transactions/trc20" _ (walletsSet_str_hashable s)
    simp only [tronWalletsSet]
    rw [show walletsSet (PyArg.str s)
        = .ok ((splitOnChar (fun c => c == ',') (stripWs s).toList).map
            (fun cs => JVal.str (String.mk cs))) from rfl,
      ok_bind, hd1, ok_bind, hd2, ok_bind]
    rfl
  have hlistOk : ∀ l : List JVal, l.all jHashable = true →
      exIsOk (tronWalletsSet (.list l)) = true := by
    intro l h
    obtain ⟨d1, hd1⟩ := tronUrlsOf_ok "" l h
    obtain ⟨d2, hd2⟩ := tronUrlsOf_ok "/transactions/trc20" l h
    simp only [tronWalletsSet]
    rw [show walletsSet (PyArg.list l) = .ok l from rfl,
      ok_bind, hd1, ok_bind, hd2, ok_bind]
    rfl
  have hlistErr : ∀ l : List JVal, l.all jHashable = false →
      tronWalletsSet (.list l) = .error (.typeError "unhashable type") := by
    intro l h
    simp only [tronWalletsSet]
    rw [show walletsSet (PyArg.list l) = .ok l from rfl, ok_bind,
      tronUrlsOf_err "" l h]
    rfl
  refine ⟨by simp [getRawData, hurl], ?_, ?_⟩
  · cases a with
    | other => simp [hother]
    | str s =>
      have h := hstr s
      constructor
      · intro hc
        rw [hc] at h
        exact absurd h (by simp [exIsOk])
      · intro hc
        exact absurd hc (by simp)
    | list l =>
      cases hall : l.all jHashable with
      | true =>
        have h := hlistOk l hall
        constructor
        · intro hc
          rw [hc] at h
          exact absurd h (by simp [exIsOk])
        · intro hc
          exact absurd hc (by simp)
      | false =>
        rw [hlistErr l hall]
        constructor
        · intro hc
          exact absurd hc (by simp)
        · intro hc
          exact absurd hc (by simp)
  · cases a with
    | other => simp [hother, exIsOk]
    | str s =>
      rw [hstr s]
      simp
    | list l =>
      cases hall : l.all jHashable with
      | true =>
        rw [hlistOk l hall]
        simp [hall]
        exact List.all_eq_true.mp hall
      | false =>
        rw [hlistErr l hall]
        simp [exIsOk, hall]
        simpa using hall

/-- Witness for C9 (both URLs unset; the argument a list holding an
unhashable nested list, which is accepted by the validation and then
raises `TypeError` from the url-dict rebuild). -/
theorem c9_witness :
    (strTruthyO none || strTruthyO none) = false ∧
    (getRawData none none .JSON (.payload (.obj [])) none none
        = .error (.valueError "Url can not be None.") ∧
      ((tronWalletsSet (.list [.arr [.int 1]])
          = .error (.valueError "Wallets must be string or list of strings."))
        ↔ PyArg.list [.arr [.int 1]] = PyArg.other) ∧
      (exIsOk (tronWalletsSet (.list [.arr [.int 1]])) = false
        ↔ (PyArg.list [.arr [.int 1]] = PyArg.other ∨
            ∃ l, PyArg.list [.arr [.int 1]] = PyArg.list l ∧
              l.all jHashable = false))) :=
  ⟨by decide,
   c9_config_fail_fast none none .JSON (.payload (.obj [])) none none
     (by decide) (.list [.arr [.int 1]])⟩
